import Mathlib

/-!
Verification of the COLO checkpoint module (migration/colo.c).

The module is embedded shallowly as executable Lean functions over a scripted
environment (a `World`): every externally visible action of the C code
(channel writes and flushes, channel reads, guest stop/resume, staging-buffer
operations, teardown calls) is recorded as an event in a trace, and every
fallible external call (the transport error state of a QEMUFile, the values
arriving on a return path, qemu_bufopen, qsb_create, qemu_file_get_return_path,
colo_init_ram_cache) takes its outcome from a script carried by the `World`.
A run of an embedded function therefore both mirrors the control flow of the
C source and produces the exact sequence of externally visible actions, which
the theorems below reason about.
-/

namespace Colo

/-- Modelled from the spec: the ordinals of the COLOMessage command enum.  The
QAPI-generated enum itself is not among the sources; section 3 of the spec
lists the distinguished commands, and only distinctness and the bound
COLO_MESSAGE__MAX matter to the code under verification. -/
def COLO_MESSAGE_CHECKPOINT_REQUEST : Nat := 0

/-- Modelled from the spec: see COLO_MESSAGE_CHECKPOINT_REQUEST. -/
def COLO_MESSAGE_CHECKPOINT_REPLY : Nat := 1

/-- Modelled from the spec: see COLO_MESSAGE_CHECKPOINT_REQUEST. -/
def COLO_MESSAGE_CHECKPOINT_READY : Nat := 2

/-- Modelled from the spec: see COLO_MESSAGE_CHECKPOINT_REQUEST. -/
def COLO_MESSAGE_VMSTATE_SEND : Nat := 3

/-- Modelled from the spec: see COLO_MESSAGE_CHECKPOINT_REQUEST. -/
def COLO_MESSAGE_VMSTATE_SIZE : Nat := 4

/-- Modelled from the spec: see COLO_MESSAGE_CHECKPOINT_REQUEST. -/
def COLO_MESSAGE_VMSTATE_RECEIVED : Nat := 5

/-- Modelled from the spec: see COLO_MESSAGE_CHECKPOINT_REQUEST. -/
def COLO_MESSAGE_VMSTATE_LOADED : Nat := 6

/-- Modelled from the spec: number of commands, the range bound checked by
colo_put_cmd and colo_get_cmd. -/
def COLO_MESSAGE__MAX : Nat := 7

/-- The four QEMUFile channel endpoints appearing in colo.c:
s->to_dst_file, s->rp_state.from_dst_file (primary side) and
mis->to_src_file, mis->from_src_file (secondary side). -/
inductive Chan where
  | toDst
  | fromDst
  | toSrc
  | fromSrc
deriving DecidableEq, Repr

/-- Externally visible actions performed by colo.c, in program order. -/
inductive Ev where
  /-- qemu_put_be32(f, cmd) -/
  | putBe32 (c : Chan) (v : Nat)
  /-- qemu_put_be64(f, value) -/
  | putBe64 (c : Chan) (v : Nat)
  /-- qemu_fflush(f) on a channel file -/
  | flush (c : Chan)
  /-- qemu_get_be32(f), recording the value read -/
  | getBe32 (c : Chan) (v : Nat)
  /-- qsb_set_length(buffer, 0) -/
  | bufTruncate
  /-- qemu_bufopen("w", buffer), recording whether it succeeded -/
  | bufOpen (ok : Bool)
  /-- qemu_fflush(trans), the write file over the staging buffer -/
  | flushTrans
  /-- vm_stop_force_state(RUN_STATE_COLO) -/
  | vmStop
  /-- vm_start() -/
  | vmStart
  /-- qemu_savevm_state_header(trans) -/
  | saveHeader
  /-- qemu_savevm_state_begin(trans, params) -/
  | saveBegin
  /-- qemu_savevm_state_complete_precopy(trans, false) -/
  | saveComplete
  /-- qsb_put_buffer(f, buffer, size) -/
  | putBuffer (c : Chan) (n : Nat)
  /-- qemu_fclose(trans) -/
  | closeTrans
  /-- qsb_create(NULL, COLO_BUFFER_BASE_SIZE), recording success -/
  | bufAlloc (ok : Bool)
  /-- qsb_free(buffer); the flag records whether a buffer was allocated
      (qsb_free of NULL frees nothing) -/
  | bufFree (allocated : Bool)
  /-- qemu_file_get_return_path(f), recording success -/
  | getReturnPath (ok : Bool)
  /-- qemu_file_set_blocking(f, true) -/
  | setBlocking (c : Chan)
  /-- colo_init_ram_cache(), recording success -/
  | ramCacheInit (ok : Bool)
  /-- colo_release_ram_cache() -/
  | ramCacheRelease
  /-- qemu_fclose on a channel file -/
  | closeFile (c : Chan)
  /-- migrate_set_state(state, COLO, COMPLETED) on the primary -/
  | setCompleted
  /-- migrate_set_state(state, ACTIVE, COLO) in the incoming thread -/
  | enterColo
  /-- migration_incoming_exit_colo() -/
  | exitColo
deriving DecidableEq, Repr

/-- Error outcomes of the embedded functions, mirroring the distinct
error_setg sites of colo.c (plus the abort of a failed assert). -/
inductive ChannelError where
  /-- error_setg "...: Invalid cmd" in colo_put_cmd / colo_get_cmd -/
  | invalidCommand (cmd : Nat)
  /-- error_setg_errno from qemu_file_get_error reporting ret < 0 -/
  | transportError (errno : Int)
  /-- error_setg "Unexpected COLO command %d, expected %d" in
      colo_get_check_cmd; the fields hold, in order, the two arguments the
      source passes for the two format slots -/
  | unexpectedCmd (slotUnexpected slotExpected : Nat)
  /-- error_setg "Got unknown COLO command: %d" in colo_wait_handle_cmd -/
  | unknownCmd (cmd : Nat)
  /-- abort of assert(request) in colo_process_incoming_thread -/
  | assertFailed
deriving DecidableEq, Repr

/-- The scripted environment threaded through every embedded function.
Each list is consumed in order: toDstErrs / toSrcErrs script the results of
qemu_file_get_error after each flush-and-check on the corresponding outbound
file; fromDstRecvs / fromSrcRecvs script each qemu_get_be32 on a return path
as a pair (error reported by the file, value read).  The Bool/Int fields
script the one-shot fallible external calls, and trace accumulates events. -/
structure World where
  toDstErrs : List Int
  toSrcErrs : List Int
  fromDstRecvs : List (Int × Nat)
  fromSrcRecvs : List (Int × Nat)
  bufOpenOk : Bool
  bufAllocOk : Bool
  returnPathOk : Bool
  ramCacheInitRet : Int
  vmstateBytes : Nat
  bufLen : Nat
  trace : List Ev
deriving DecidableEq, Repr

/-- Append one event to the trace. -/
def World.emit (w : World) (e : Ev) : World :=
  { w with trace := w.trace ++ [e] }

/-- Consume the next scripted qemu_file_get_error result for an outbound
file (0, meaning no error, once the script is exhausted). -/
def World.nextErr (w : World) (c : Chan) : World × Int :=
  match c with
  | .toDst =>
    match w.toDstErrs with
    | [] => (w, 0)
    | r :: rest => ({ w with toDstErrs := rest }, r)
  | .toSrc =>
    match w.toSrcErrs with
    | [] => (w, 0)
    | r :: rest => ({ w with toSrcErrs := rest }, r)
  | _ => (w, 0)

/-- Consume the next scripted qemu_get_be32 outcome for a return-path file:
the pair (file error, value read); (0, 0) once the script is exhausted. -/
def World.nextRecv (w : World) (c : Chan) : World × Int × Nat :=
  match c with
  | .fromDst =>
    match w.fromDstRecvs with
    | [] => (w, 0, 0)
    | (e, v) :: rest => ({ w with fromDstRecvs := rest }, e, v)
  | .fromSrc =>
    match w.fromSrcRecvs with
    | [] => (w, 0, 0)
    | (e, v) :: rest => ({ w with fromSrcRecvs := rest }, e, v)
  | _ => (w, 0, 0)

/-- The pending receive script of a channel (used to state hypotheses about
what arrives next on a return path). -/
def World.recvScript (w : World) (c : Chan) : List (Int × Nat) :=
  match c with
  | .fromDst => w.fromDstRecvs
  | .fromSrc => w.fromSrcRecvs
  | _ => []

/-- colo_put_cmd (colo.c lines 41-58): reject an out-of-range ordinal before
any I/O; otherwise write the big-endian ordinal, flush, and check the file's
error state. -/
def colo_put_cmd (w : World) (f : Chan) (cmd : Nat) : World × Option ChannelError :=
  if cmd ≥ COLO_MESSAGE__MAX then
    (w, some (.invalidCommand cmd))
  else
    match ((w.emit (.putBe32 f cmd)).emit (.flush f)).nextErr f with
    | (w1, ret) =>
      if ret < 0 then (w1, some (.transportError ret)) else (w1, none)

/-- colo_put_cmd_value (colo.c lines 60-79): colo_put_cmd, then on success
write the big-endian value, flush and check again. -/
def colo_put_cmd_value (w : World) (f : Chan) (cmd : Nat) (value : Nat) :
    World × Option ChannelError :=
  match colo_put_cmd w f cmd with
  | (w1, some e) => (w1, some e)
  | (w1, none) =>
    match ((w1.emit (.putBe64 f value)).emit (.flush f)).nextErr f with
    | (w2, ret) =>
      if ret < 0 then (w2, some (.transportError ret)) else (w2, none)

/-- colo_get_cmd (colo.c lines 81-98): read a big-endian ordinal, report a
transport error if the file is in error, else reject an out-of-range
ordinal; the decoded value is returned in every case, as in the source. -/
def colo_get_cmd (w : World) (f : Chan) : World × Nat × Option ChannelError :=
  match w.nextRecv f with
  | (w1, ret, cmd) =>
    if ret < 0 then (w1.emit (.getBe32 f cmd), cmd, some (.transportError ret))
    else if cmd ≥ COLO_MESSAGE__MAX then
      (w1.emit (.getBe32 f cmd), cmd, some (.invalidCommand cmd))
    else (w1.emit (.getBe32 f cmd), cmd, none)

/-- colo_get_check_cmd (colo.c lines 100-115): colo_get_cmd, propagating its
error, then compare with the expected command.  On mismatch the source calls
error_setg with format "Unexpected COLO command %d, expected %d" passing
expect_cmd then cmd, in that order; the embedding preserves that argument
order in the two slots of the unexpectedCmd error. -/
def colo_get_check_cmd (w : World) (f : Chan) (expect_cmd : Nat) :
    World × Option ChannelError :=
  match colo_get_cmd w f with
  | (w1, _, some e) => (w1, some e)
  | (w1, cmd, none) =>
    if cmd ≠ expect_cmd then
      (w1, some (.unexpectedCmd expect_cmd cmd))
    else (w1, none)

/-- colo_wait_handle_cmd (colo.c lines 274-295): colo_get_cmd, propagating
its error without touching checkpoint_request; on CHECKPOINT_REQUEST set the
flag to 1; on any other decoded command set it to 0 and report an unknown
command.  The middle component is the value written to *checkpoint_request,
none when the early error return leaves it unwritten. -/
def colo_wait_handle_cmd (w : World) (f : Chan) :
    World × Option Nat × Option ChannelError :=
  match colo_get_cmd w f with
  | (w1, _, some e) => (w1, none, some e)
  | (w1, cmd, none) =>
    if cmd = COLO_MESSAGE_CHECKPOINT_REQUEST then (w1, some 1, none)
    else (w1, some 0, some (.unknownCmd cmd))

/-- colo_do_checkpoint_transaction (colo.c lines 117-206).  Returns the
resulting world and the C return value: ret starts at -1, so the failures
up to opening the buffer return -1; the qemu_file_get_error check after
qsb_put_buffer overwrites ret (line 174) and returns it when negative; the
two colo_get_check_cmd failures that follow (VMSTATE_RECEIVED, line 179;
VMSTATE_LOADED, line 185) goto out without reassigning ret, so they return
that same overwritten value — 0 when the flush had succeeded — and only the
fully successful path assigns ret = 0 deliberately (line 191) before
vm_start.  The qemu_fclose(trans) of the out label is emitted exactly on
the paths where trans was successfully opened, as in the source. -/
def colo_do_checkpoint_transaction (w : World) : World × Int :=
  match colo_put_cmd w .toDst COLO_MESSAGE_CHECKPOINT_REQUEST with
  | (w1, some _) => (w1, -1)
  | (w1, none) =>
  match colo_get_check_cmd w1 .fromDst COLO_MESSAGE_CHECKPOINT_REPLY with
  | (w2, some _) => (w2, -1)
  | (w2, none) =>
  let w3 := ({ w2 with bufLen := 0 }).emit .bufTruncate
  let w4 := w3.emit (.bufOpen w3.bufOpenOk)
  if w4.bufOpenOk = false then (w4, -1)
  else
  let w5 := ((w4.emit .vmStop).emit .saveHeader).emit .saveBegin
  let w6 := { w5.emit .saveComplete with bufLen := w5.bufLen + w5.vmstateBytes }
  let w7 := w6.emit .flushTrans
  match colo_put_cmd w7 .toDst COLO_MESSAGE_VMSTATE_SEND with
  | (w8, some _) => (w8.emit .closeTrans, -1)
  | (w8, none) =>
  match colo_put_cmd_value w8 .toDst COLO_MESSAGE_VMSTATE_SIZE w8.bufLen with
  | (w9, some _) => (w9.emit .closeTrans, -1)
  | (w9, none) =>
  let w10 := (w9.emit (.putBuffer .toDst w9.bufLen)).emit (.flush .toDst)
  let p := w10.nextErr .toDst
  if p.2 < 0 then ((p.1).emit .closeTrans, p.2)
  else
  match colo_get_check_cmd p.1 .fromDst COLO_MESSAGE_VMSTATE_RECEIVED with
  | (w11, some _) => (w11.emit .closeTrans, p.2)
  | (w11, none) =>
  match colo_get_check_cmd w11 .fromDst COLO_MESSAGE_VMSTATE_LOADED with
  | (w12, some _) => (w12.emit .closeTrans, p.2)
  | (w12, none) =>
  ((w12.emit .vmStart).emit .closeTrans, 0)

/-- The out label of colo_process_checkpoint (colo.c lines 249-263):
transition to COMPLETED, qsb_free the buffer (allocated records whether a
buffer existed), and close the return path when it was opened. -/
def colo_checkpoint_out (w : World) (allocated : Bool) : World :=
  let w1 := (w.emit .setCompleted).emit (.bufFree allocated)
  if w1.returnPathOk then w1.emit (.closeFile .fromDst) else w1

/-- The while loop of colo_process_checkpoint (colo.c lines 241-247): each
scripted Bool is one evaluation of s->state == MIGRATION_STATUS_COLO; a
failed transaction leaves the loop.  The script ending means the state left
MIGRATION_STATUS_COLO. -/
def colo_primary_loop (w : World) (phase : List Bool) : World × Int :=
  match phase with
  | [] => (w, 0)
  | inColo :: rest =>
    if inColo = false then (w, 0)
    else
      match colo_do_checkpoint_transaction w with
      | (w1, ret) => if ret < 0 then (w1, ret) else colo_primary_loop w1 rest

/-- colo_process_checkpoint (colo.c lines 208-263): open the return path,
wait for CHECKPOINT_READY, allocate the staging buffer once, start the
guest, run the transaction loop, and tear down through the out label. -/
def colo_process_checkpoint (w : World) (phase : List Bool) : World :=
  let w1 := w.emit (.getReturnPath w.returnPathOk)
  if w1.returnPathOk = false then colo_checkpoint_out w1 false
  else
    match colo_get_check_cmd w1 .fromDst COLO_MESSAGE_CHECKPOINT_READY with
    | (w2, some _) => colo_checkpoint_out w2 false
    | (w2, none) =>
      if w2.bufAllocOk = false then colo_checkpoint_out (w2.emit (.bufAlloc false)) false
      else
        let w3 := (w2.emit (.bufAlloc true)).emit .vmStart
        colo_checkpoint_out (colo_primary_loop w3 phase).1 true

/-- The out label of colo_process_incoming_thread (colo.c lines 367-381):
release the ram cache, close to_src_file when it was opened, and signal the
end of the incoming COLO phase. -/
def colo_incoming_out (w : World) : World :=
  let w1 := w.emit .ramCacheRelease
  let w2 := if w1.returnPathOk then w1.emit (.closeFile .toSrc) else w1
  w2.emit .exitColo

/-- The while loop of colo_process_incoming_thread (colo.c lines 329-365):
each scripted Bool is one evaluation of mis->state == MIGRATION_STATUS_COLO.
The assert(request) of the source is modelled as the assertFailed outcome
when the written request flag is 0 or unwritten. -/
def colo_incoming_loop (w : World) (phase : List Bool) : World × Option ChannelError :=
  match phase with
  | [] => (w, none)
  | inColo :: rest =>
    if inColo = false then (w, none)
    else
      match colo_wait_handle_cmd w .fromSrc with
      | (w1, _, some e) => (w1, some e)
      | (w1, request, none) =>
        if request.getD 0 = 0 then (w1, some .assertFailed)
        else
        match colo_put_cmd w1 .toSrc COLO_MESSAGE_CHECKPOINT_REPLY with
        | (w2, some e) => (w2, some e)
        | (w2, none) =>
        match colo_get_check_cmd w2 .fromSrc COLO_MESSAGE_VMSTATE_SEND with
        | (w3, some e) => (w3, some e)
        | (w3, none) =>
        match colo_put_cmd w3 .toSrc COLO_MESSAGE_VMSTATE_RECEIVED with
        | (w4, some e) => (w4, some e)
        | (w4, none) =>
        match colo_put_cmd w4 .toSrc COLO_MESSAGE_VMSTATE_LOADED with
        | (w5, some e) => (w5, some e)
        | (w5, none) => colo_incoming_loop w5 rest

/-- colo_process_incoming_thread (colo.c lines 297-383): enter COLO, open
the return path, set the inbound file blocking, initialize the ram cache,
send CHECKPOINT_READY, run the responder loop, and tear down through the
out label on every path. -/
def colo_process_incoming_thread (w : World) (phase : List Bool) : World :=
  let w1 := (w.emit .enterColo).emit (.getReturnPath w.returnPathOk)
  if w1.returnPathOk = false then colo_incoming_out w1
  else
    let w2 := w1.emit (.setBlocking .fromSrc)
    if w2.ramCacheInitRet < 0 then colo_incoming_out (w2.emit (.ramCacheInit false))
    else
      let w3 := w2.emit (.ramCacheInit true)
      match colo_put_cmd w3 .toSrc COLO_MESSAGE_CHECKPOINT_READY with
      | (w4, some _) => colo_incoming_out w4
      | (w4, none) => colo_incoming_out (colo_incoming_loop w4 phase).1

/-- The full event sequence of one successful primary checkpoint
transaction, parameterized by the number of bytes the savevm serializer
wrote into the staging buffer. -/
def successTraceP (n : Nat) : List Ev :=
  [.putBe32 .toDst COLO_MESSAGE_CHECKPOINT_REQUEST, .flush .toDst,
   .getBe32 .fromDst COLO_MESSAGE_CHECKPOINT_REPLY,
   .bufTruncate, .bufOpen true,
   .vmStop, .saveHeader, .saveBegin, .saveComplete, .flushTrans,
   .putBe32 .toDst COLO_MESSAGE_VMSTATE_SEND, .flush .toDst,
   .putBe32 .toDst COLO_MESSAGE_VMSTATE_SIZE, .flush .toDst,
   .putBe64 .toDst n, .flush .toDst,
   .putBuffer .toDst n, .flush .toDst,
   .getBe32 .fromDst COLO_MESSAGE_VMSTATE_RECEIVED,
   .getBe32 .fromDst COLO_MESSAGE_VMSTATE_LOADED,
   .vmStart, .closeTrans]

/-- An event occurs exactly once in a list. -/
def ExactlyOnce (e : Ev) (l : List Ev) : Prop :=
  ∃ l1 l2, l = l1 ++ e :: l2 ∧ e ∉ l1 ∧ e ∉ l2

/-- Events that touch the staging buffer. -/
def isBufEv : Ev → Bool
  | .bufTruncate => true
  | .bufOpen _ => true
  | .saveHeader => true
  | .saveBegin => true
  | .saveComplete => true
  | .putBuffer _ _ => true
  | .bufAlloc _ => true
  | .bufFree _ => true
  | _ => false

/-- The subsequence of staging-buffer events of a trace. -/
def bufEvs (l : List Ev) : List Ev := l.filter isBufEv

/-- One step of the guest run-state automaton (true means running). -/
def stepGuest (b : Bool) (e : Ev) : Bool :=
  match e with
  | .vmStop => false
  | .vmStart => true
  | _ => b

/-- Guest run state after a trace, starting from run state b. -/
def guestStateAfter (b : Bool) (l : List Ev) : Bool := l.foldl stepGuest b

/-- The scripted configuration (everything except the trace, the consumable
scripts and the buffer length) is unchanged between two worlds. -/
def SameCfg (w w' : World) : Prop :=
  w'.bufOpenOk = w.bufOpenOk ∧ w'.bufAllocOk = w.bufAllocOk ∧
  w'.returnPathOk = w.returnPathOk ∧ w'.ramCacheInitRet = w.ramCacheInitRet ∧
  w'.vmstateBytes = w.vmstateBytes

lemma sameCfg_refl (w : World) : SameCfg w w := ⟨rfl, rfl, rfl, rfl, rfl⟩

lemma sameCfg_comp {w1 w2 w3 : World} (h : SameCfg w1 w2) (h' : SameCfg w2 w3) :
    SameCfg w1 w3 := by
  obtain ⟨a, b, c, d, e⟩ := h
  obtain ⟨a', b', c', d', e'⟩ := h'
  exact ⟨a'.trans a, b'.trans b, c'.trans c, d'.trans d, e'.trans e⟩

lemma nextErr_shape (w : World) (c : Chan) :
    (w.nextErr c).1.trace = w.trace ∧ SameCfg w (w.nextErr c).1 ∧
      (w.nextErr c).1.bufLen = w.bufLen := by
  cases c
  case toDst => cases h : w.toDstErrs <;> simp [World.nextErr, SameCfg, h]
  case toSrc => cases h : w.toSrcErrs <;> simp [World.nextErr, SameCfg, h]
  case fromDst => simp [World.nextErr, SameCfg]
  case fromSrc => simp [World.nextErr, SameCfg]

lemma nextRecv_shape (w : World) (c : Chan) :
    (w.nextRecv c).1.trace = w.trace ∧ SameCfg w (w.nextRecv c).1 ∧
      (w.nextRecv c).1.bufLen = w.bufLen := by
  cases c
  case toDst => simp [World.nextRecv, SameCfg]
  case toSrc => simp [World.nextRecv, SameCfg]
  case fromDst =>
    cases h : w.fromDstRecvs with
    | nil => simp [World.nextRecv, SameCfg, h]
    | cons p rest => cases p; simp [World.nextRecv, SameCfg, h]
  case fromSrc =>
    cases h : w.fromSrcRecvs with
    | nil => simp [World.nextRecv, SameCfg, h]
    | cons p rest => cases p; simp [World.nextRecv, SameCfg, h]

lemma colo_put_cmd_ext (w : World) (f : Chan) (cmd : Nat) :
    ∃ ext, (colo_put_cmd w f cmd).1.trace = w.trace ++ ext ∧
      ext ⊆ [Ev.putBe32 f cmd, Ev.flush f] ∧
      SameCfg w (colo_put_cmd w f cmd).1 ∧
      (colo_put_cmd w f cmd).1.bufLen = w.bufLen ∧
      ((colo_put_cmd w f cmd).2 = none → ext = [Ev.putBe32 f cmd, Ev.flush f]) ∧
      (colo_put_cmd w f cmd).2 ≠ some ChannelError.assertFailed := by
  unfold colo_put_cmd
  split
  · exact ⟨[], by simp, by simp, sameCfg_refl w, rfl, by simp, by simp⟩
  · obtain ⟨ht, hc, hb⟩ := nextErr_shape ((w.emit (.putBe32 f cmd)).emit (.flush f)) f
    rcases hne : ((w.emit (.putBe32 f cmd)).emit (.flush f)).nextErr f with ⟨w1, ret⟩
    rw [hne] at ht hc hb
    simp only at ht hc hb
    simp only
    refine ⟨[Ev.putBe32 f cmd, Ev.flush f], ?_, by simp, ?_, ?_, ?_, ?_⟩
    · split <;> simpa [World.emit] using ht
    · split <;> exact hc
    · split <;> exact hb
    · split
      · simp
      · exact fun _ => rfl
    · split <;> simp

lemma colo_put_cmd_value_ext (w : World) (f : Chan) (cmd value : Nat) :
    ∃ ext, (colo_put_cmd_value w f cmd value).1.trace = w.trace ++ ext ∧
      ext ⊆ [Ev.putBe32 f cmd, Ev.flush f, Ev.putBe64 f value] ∧
      SameCfg w (colo_put_cmd_value w f cmd value).1 ∧
      (colo_put_cmd_value w f cmd value).1.bufLen = w.bufLen ∧
      ((colo_put_cmd_value w f cmd value).2 = none →
        ext = [Ev.putBe32 f cmd, Ev.flush f, Ev.putBe64 f value, Ev.flush f]) ∧
      (colo_put_cmd_value w f cmd value).2 ≠ some ChannelError.assertFailed := by
  obtain ⟨ext1, ht1, hs1, hc1, hb1, hok1, hna1⟩ := colo_put_cmd_ext w f cmd
  unfold colo_put_cmd_value
  split
  next w1 e hp =>
    rw [hp] at ht1 hc1 hb1 hok1 hna1
    simp only at ht1 hc1 hb1 hok1 hna1
    refine ⟨ext1, ht1, fun x hx => ?_, hc1, hb1, by simp, by simpa using hna1⟩
    have hm := hs1 hx
    simp only [List.mem_cons, List.not_mem_nil, or_false] at hm ⊢
    tauto
  next w1 hp =>
    rw [hp] at ht1 hc1 hb1 hok1 hna1
    simp only at ht1 hc1 hb1 hok1 hna1
    have hext1 : ext1 = [Ev.putBe32 f cmd, Ev.flush f] := hok1 (by simp)
    obtain ⟨ht2, hc2, hb2⟩ :=
      nextErr_shape ((w1.emit (.putBe64 f value)).emit (.flush f)) f
    rcases hne : ((w1.emit (.putBe64 f value)).emit (.flush f)).nextErr f with ⟨w2, ret⟩
    rw [hne] at ht2 hc2 hb2
    simp only [World.emit] at ht2 hc2 hb2
    simp only
    refine ⟨[Ev.putBe32 f cmd, Ev.flush f, Ev.putBe64 f value, Ev.flush f],
      ?_, ?_, ?_, ?_, ?_, ?_⟩
    · simp only [ht1, hext1, List.append_assoc] at ht2
      split <;> simp [ht2]
    · intro x hx; simp only [List.mem_cons, List.not_mem_nil, or_false] at hx ⊢; tauto
    · split <;> exact sameCfg_comp hc1 hc2
    · split <;> simp [hb2, hb1]
    · split
      · simp
      · exact fun _ => rfl
    · split <;> simp

lemma colo_get_cmd_ext (w : World) (f : Chan) :
    (colo_get_cmd w f).1.trace = w.trace ++ [Ev.getBe32 f (colo_get_cmd w f).2.1] ∧
      SameCfg w (colo_get_cmd w f).1 ∧
      (colo_get_cmd w f).1.bufLen = w.bufLen ∧
      (colo_get_cmd w f).2.2 ≠ some ChannelError.assertFailed := by
  obtain ⟨ht, hc, hb⟩ := nextRecv_shape w f
  unfold colo_get_cmd
  rcases hnr : w.nextRecv f with ⟨w1, ret, cmd⟩
  rw [hnr] at ht hc hb
  simp only at ht hc hb
  simp only
  split
  · exact ⟨by simp [World.emit, ht], hc, hb, by simp⟩
  · split
    · exact ⟨by simp [World.emit, ht], hc, hb, by simp⟩
    · exact ⟨by simp [World.emit, ht], hc, hb, by simp⟩

lemma colo_get_check_cmd_ext (w : World) (f : Chan) (x : Nat) :
    ∃ v, (colo_get_check_cmd w f x).1.trace = w.trace ++ [Ev.getBe32 f v] ∧
      SameCfg w (colo_get_check_cmd w f x).1 ∧
      (colo_get_check_cmd w f x).1.bufLen = w.bufLen ∧
      ((colo_get_check_cmd w f x).2 = none → v = x) ∧
      (colo_get_check_cmd w f x).2 ≠ some ChannelError.assertFailed := by
  obtain ⟨ht, hc, hb, hna⟩ := colo_get_cmd_ext w f
  unfold colo_get_check_cmd
  rcases hg : colo_get_cmd w f with ⟨w1, cmd, e⟩
  rw [hg] at ht hc hb hna
  simp only at ht hc hb hna
  cases e
  case some e1 => exact ⟨cmd, ht, hc, hb, by simp, by simpa using hna⟩
  case none =>
    simp only
    split
    · exact ⟨cmd, ht, hc, hb, by simp, by simp⟩
    · next hcmd =>
      have : cmd = x := by push_neg at hcmd; exact hcmd
      exact ⟨cmd, ht, hc, hb, fun _ => this, by simp⟩

lemma colo_wait_handle_cmd_ext (w : World) (f : Chan) :
    ∃ v, (colo_wait_handle_cmd w f).1.trace = w.trace ++ [Ev.getBe32 f v] ∧
      SameCfg w (colo_wait_handle_cmd w f).1 ∧
      (colo_wait_handle_cmd w f).1.bufLen = w.bufLen ∧
      ((colo_wait_handle_cmd w f).2.2 = none → (colo_wait_handle_cmd w f).2.1 = some 1) ∧
      ((colo_wait_handle_cmd w f).2.1 = some 0 → (colo_wait_handle_cmd w f).2.2 ≠ none) ∧
      (colo_wait_handle_cmd w f).2.2 ≠ some ChannelError.assertFailed := by
  obtain ⟨ht, hc, hb, hna⟩ := colo_get_cmd_ext w f
  unfold colo_wait_handle_cmd
  rcases hg : colo_get_cmd w f with ⟨w1, cmd, e⟩
  rw [hg] at ht hc hb hna
  simp only at ht hc hb hna
  cases e
  case some e1 => exact ⟨cmd, ht, hc, hb, by simp, by simp, by simpa using hna⟩
  case none =>
    simp only
    split
    · exact ⟨cmd, ht, hc, hb, fun _ => rfl, by simp, by simp⟩
    · exact ⟨cmd, ht, hc, hb, by simp, by simp, by simp⟩

/-- Everything the claims need to know about the events appended by one run
of the primary checkpoint transaction returning ret.  A run that resumes
the guest is exactly the full success run and returns 0; a run returning
nonzero never resumes (the converse fails in the source: the two
acknowledgment-check failures return the non-negative ret left over from
the qemu_file_get_error check at line 174 without resuming). -/
def TransExt (w : World) (ret : Int) (ext : List Ev) : Prop :=
  (Ev.vmStart ∈ ext → ext = successTraceP w.vmstateBytes ∧ ret = 0) ∧
  (ret ≠ 0 → Ev.vmStart ∉ ext) ∧
  (∀ b, Ev.bufAlloc b ∉ ext) ∧
  (∀ b, Ev.bufFree b ∉ ext) ∧
  (∀ b, Ev.getReturnPath b ∉ ext) ∧
  (∀ c, Ev.closeFile c ∉ ext) ∧
  Ev.setCompleted ∉ ext ∧
  (Ev.bufOpen true ∈ ext → ExactlyOnce Ev.closeTrans ext) ∧
  (Ev.bufOpen true ∉ ext → Ev.closeTrans ∉ ext) ∧
  (bufEvs ext = [] ∨ ∃ t, bufEvs ext = Ev.bufTruncate :: t)

lemma transExt_fail (w : World) (ret : Int) (ext : List Ev)
    (h1 : Ev.vmStart ∉ ext)
    (h2 : ∀ b, Ev.bufAlloc b ∉ ext) (h3 : ∀ b, Ev.bufFree b ∉ ext)
    (h4 : ∀ b, Ev.getReturnPath b ∉ ext) (h5 : ∀ c, Ev.closeFile c ∉ ext)
    (h6 : Ev.setCompleted ∉ ext)
    (h7 : Ev.bufOpen true ∈ ext → ExactlyOnce Ev.closeTrans ext)
    (h8 : Ev.bufOpen true ∉ ext → Ev.closeTrans ∉ ext)
    (h9 : bufEvs ext = [] ∨ ∃ t, bufEvs ext = Ev.bufTruncate :: t) :
    TransExt w ret ext :=
  ⟨fun h => absurd h h1, fun _ => h1, h2, h3, h4, h5, h6, h7, h8, h9⟩

lemma colo_put_cmd_eq {w w' : World} {f : Chan} {cmd : Nat} {r : Option ChannelError}
    (h : colo_put_cmd w f cmd = (w', r)) :
    ∃ ext, w'.trace = w.trace ++ ext ∧ ext ⊆ [Ev.putBe32 f cmd, Ev.flush f] ∧
      SameCfg w w' ∧ w'.bufLen = w.bufLen ∧
      (r = none → ext = [Ev.putBe32 f cmd, Ev.flush f]) ∧
      r ≠ some ChannelError.assertFailed := by
  obtain ⟨ext, ht, hs, hc, hb, hok, hna⟩ := colo_put_cmd_ext w f cmd
  rw [h] at ht hc hb hok hna
  exact ⟨ext, ht, hs, hc, hb, hok, hna⟩

lemma colo_put_cmd_value_eq {w w' : World} {f : Chan} {cmd value : Nat}
    {r : Option ChannelError} (h : colo_put_cmd_value w f cmd value = (w', r)) :
    ∃ ext, w'.trace = w.trace ++ ext ∧
      ext ⊆ [Ev.putBe32 f cmd, Ev.flush f, Ev.putBe64 f value] ∧
      SameCfg w w' ∧ w'.bufLen = w.bufLen ∧
      (r = none → ext = [Ev.putBe32 f cmd, Ev.flush f, Ev.putBe64 f value, Ev.flush f]) ∧
      r ≠ some ChannelError.assertFailed := by
  obtain ⟨ext, ht, hs, hc, hb, hok, hna⟩ := colo_put_cmd_value_ext w f cmd value
  rw [h] at ht hc hb hok hna
  exact ⟨ext, ht, hs, hc, hb, hok, hna⟩

lemma colo_get_check_cmd_eq {w w' : World} {f : Chan} {x : Nat}
    {r : Option ChannelError} (h : colo_get_check_cmd w f x = (w', r)) :
    ∃ v, w'.trace = w.trace ++ [Ev.getBe32 f v] ∧ SameCfg w w' ∧ w'.bufLen = w.bufLen ∧
      (r = none → v = x) ∧ r ≠ some ChannelError.assertFailed := by
  obtain ⟨v, ht, hc, hb, hok, hna⟩ := colo_get_check_cmd_ext w f x
  rw [h] at ht hc hb hok hna
  exact ⟨v, ht, hc, hb, hok, hna⟩

lemma colo_wait_handle_cmd_eq {w w' : World} {f : Chan} {req : Option Nat}
    {r : Option ChannelError} (h : colo_wait_handle_cmd w f = (w', req, r)) :
    ∃ v, w'.trace = w.trace ++ [Ev.getBe32 f v] ∧ SameCfg w w' ∧ w'.bufLen = w.bufLen ∧
      (r = none → req = some 1) ∧ (req = some 0 → r ≠ none) ∧
      r ≠ some ChannelError.assertFailed := by
  obtain ⟨v, ht, hc, hb, hok, hz, hna⟩ := colo_wait_handle_cmd_ext w f
  rw [h] at ht hc hb hok hz hna
  exact ⟨v, ht, hc, hb, hok, hz, hna⟩

/-- Events drawn from a channel-write vocabulary touch neither the guest,
the staging buffer, nor any teardown resource. -/
lemma sendSubsetSafe {e : List Ev} {f : Chan} {c v : Nat}
    (hs : e ⊆ [Ev.putBe32 f c, Ev.flush f, Ev.putBe64 f v]) :
    Ev.vmStart ∉ e ∧ (∀ b, Ev.bufAlloc b ∉ e) ∧ (∀ b, Ev.bufFree b ∉ e) ∧
    (∀ b, Ev.getReturnPath b ∉ e) ∧ (∀ c2, Ev.closeFile c2 ∉ e) ∧
    Ev.setCompleted ∉ e ∧ Ev.closeTrans ∉ e ∧ (∀ b, Ev.bufOpen b ∉ e) ∧
    bufEvs e = [] := by
  refine ⟨fun h => absurd (hs h) (by simp),
    fun b h => absurd (hs h) (by simp),
    fun b h => absurd (hs h) (by simp),
    fun b h => absurd (hs h) (by simp),
    fun c2 h => absurd (hs h) (by simp),
    fun h => absurd (hs h) (by simp),
    fun h => absurd (hs h) (by simp),
    fun b h => absurd (hs h) (by simp), ?_⟩
  refine List.filter_eq_nil_iff.mpr fun x hx => ?_
  have hm := hs hx
  simp only [List.mem_cons, List.not_mem_nil, or_false] at hm
  rcases hm with h | h | h <;> simp [h, isBufEv]

theorem trans_shape (w : World) : ∃ ext,
    (colo_do_checkpoint_transaction w).1.trace = w.trace ++ ext ∧
    TransExt w (colo_do_checkpoint_transaction w).2 ext := by
  unfold colo_do_checkpoint_transaction
  split
  next w1 er1 hp1 =>
    obtain ⟨e1, h1t, h1s, h1c, h1b, h1ok, h1na⟩ := colo_put_cmd_eq hp1
    have h1w : e1 ⊆ [Ev.putBe32 .toDst COLO_MESSAGE_CHECKPOINT_REQUEST, Ev.flush .toDst,
        Ev.putBe64 .toDst 0] := h1s.trans (by simp)
    obtain ⟨s1, s2, s3, s4, s5, s6, s7, s8, s9⟩ := sendSubsetSafe h1w
    simp only
    refine ⟨e1, h1t, transExt_fail w (-1) e1 s1 s2 s3 s4 s5 s6
      (fun h => absurd h (s8 true)) (fun _ => s7) (Or.inl s9)⟩
  next w1 hp1 =>
    obtain ⟨e1, h1t, h1s, h1c, h1b, h1ok, h1na⟩ := colo_put_cmd_eq hp1
    have he1 := h1ok rfl
    rw [he1] at h1t
    split
    next w2 er2 hp2 =>
      obtain ⟨v2, h2t, h2c, h2b, h2ok, h2na⟩ := colo_get_check_cmd_eq hp2
      rw [h1t, List.append_assoc] at h2t
      simp only
      refine ⟨_, h2t, transExt_fail w (-1) _ (by simp) (by simp) (by simp)
        (by simp) (by simp) (by simp) (by simp) (by simp) ?_⟩
      left
      simp [bufEvs, isBufEv]
    next w2 hp2 =>
      obtain ⟨v2, h2t, h2c, h2b, h2ok, h2na⟩ := colo_get_check_cmd_eq hp2
      have hv2 := h2ok rfl
      rw [h1t, hv2, List.append_assoc] at h2t
      have hcfg2 : SameCfg w w2 := sameCfg_comp h1c h2c
      simp only
      split
      next hopen =>
        simp only [World.emit] at hopen
        simp only
        refine ⟨[Ev.putBe32 .toDst COLO_MESSAGE_CHECKPOINT_REQUEST, Ev.flush .toDst,
                 Ev.getBe32 .fromDst COLO_MESSAGE_CHECKPOINT_REPLY,
                 Ev.bufTruncate, Ev.bufOpen false], ?_, ?_⟩
        · simp [World.emit, h2t, hopen, List.append_assoc]
        · refine transExt_fail w (-1) _ (by simp) (by simp) (by simp)
            (by simp) (by simp) (by simp) (by simp) (by simp) ?_
          right
          exact ⟨[Ev.bufOpen false], by simp [bufEvs, isBufEv]⟩
      next hopen =>
        simp only [World.emit] at hopen
        rw [Bool.not_eq_false] at hopen
        split
        next w8 er3 hp3 =>
          obtain ⟨e3, h3t, h3s, h3c, h3b, h3ok, h3na⟩ := colo_put_cmd_eq hp3
          have h3w : e3 ⊆ [Ev.putBe32 .toDst COLO_MESSAGE_VMSTATE_SEND, Ev.flush .toDst,
              Ev.putBe64 .toDst 0] := h3s.trans (by simp)
          obtain ⟨s1, s2, s3, s4, s5, s6, s7, s8, s9⟩ := sendSubsetSafe h3w
          simp only [World.emit, h2t, hopen, List.append_assoc] at h3t
          simp only
          refine ⟨[Ev.putBe32 .toDst COLO_MESSAGE_CHECKPOINT_REQUEST, Ev.flush .toDst,
                   Ev.getBe32 .fromDst COLO_MESSAGE_CHECKPOINT_REPLY,
                   Ev.bufTruncate, Ev.bufOpen true, Ev.vmStop, Ev.saveHeader,
                   Ev.saveBegin, Ev.saveComplete, Ev.flushTrans] ++ e3 ++
                   [Ev.closeTrans], ?_, ?_⟩
          · simp [World.emit, h3t, List.append_assoc]
          · refine transExt_fail w (-1) _ ?_ ?_ ?_ ?_ ?_ ?_ ?_ ?_ ?_
            · simp [s1]
            · intro b; simp [s2 b]
            · intro b; simp [s3 b]
            · intro b; simp [s4 b]
            · intro c2; simp [s5 c2]
            · simp [s6]
            · intro _
              refine ⟨[Ev.putBe32 .toDst COLO_MESSAGE_CHECKPOINT_REQUEST, Ev.flush .toDst,
                       Ev.getBe32 .fromDst COLO_MESSAGE_CHECKPOINT_REPLY,
                       Ev.bufTruncate, Ev.bufOpen true, Ev.vmStop, Ev.saveHeader,
                       Ev.saveBegin, Ev.saveComplete, Ev.flushTrans] ++ e3, [], ?_, ?_, ?_⟩
              · simp [List.append_assoc]
              · simp [s7]
              · simp
            · intro h; exact absurd (by simp) h
            · right
              refine ⟨[Ev.bufOpen true, Ev.saveHeader, Ev.saveBegin, Ev.saveComplete], ?_⟩
              have s9f : List.filter isBufEv e3 = [] := s9
              unfold bufEvs
              rw [List.filter_append, List.filter_append, s9f]
              rfl
        next w8 hp3 =>
          obtain ⟨e3, h3t, h3s, h3c, h3b, h3ok, h3na⟩ := colo_put_cmd_eq hp3
          have he3 := h3ok rfl
          rw [he3] at h3t
          simp only [World.emit, h2t, hopen, List.append_assoc] at h3t h3b
          have hvm : w2.vmstateBytes = w.vmstateBytes := hcfg2.2.2.2.2
          have hbl8 : w8.bufLen = w.vmstateBytes := by rw [h3b, Nat.zero_add, hvm]
          split
          next w9 er4 hp4 =>
            obtain ⟨e4, h4t, h4s, h4c, h4b, h4ok, h4na⟩ := colo_put_cmd_value_eq hp4
            obtain ⟨s1, s2, s3, s4, s5, s6, s7, s8, s9⟩ := sendSubsetSafe h4s
            rw [h3t, List.append_assoc] at h4t
            simp only
            refine ⟨[Ev.putBe32 .toDst COLO_MESSAGE_CHECKPOINT_REQUEST, Ev.flush .toDst,
                     Ev.getBe32 .fromDst COLO_MESSAGE_CHECKPOINT_REPLY,
                     Ev.bufTruncate, Ev.bufOpen true, Ev.vmStop, Ev.saveHeader,
                     Ev.saveBegin, Ev.saveComplete, Ev.flushTrans,
                     Ev.putBe32 .toDst COLO_MESSAGE_VMSTATE_SEND, Ev.flush .toDst] ++ e4 ++
                     [Ev.closeTrans], ?_, ?_⟩
            · simp [World.emit, h4t, List.append_assoc]
            · refine transExt_fail w (-1) _ ?_ ?_ ?_ ?_ ?_ ?_ ?_ ?_ ?_
              · simp [s1]
              · intro b; simp [s2 b]
              · intro b; simp [s3 b]
              · intro b; simp [s4 b]
              · intro c2; simp [s5 c2]
              · simp [s6]
              · intro _
                refine ⟨[Ev.putBe32 .toDst COLO_MESSAGE_CHECKPOINT_REQUEST, Ev.flush .toDst,
                         Ev.getBe32 .fromDst COLO_MESSAGE_CHECKPOINT_REPLY,
                         Ev.bufTruncate, Ev.bufOpen true, Ev.vmStop, Ev.saveHeader,
                         Ev.saveBegin, Ev.saveComplete, Ev.flushTrans,
                         Ev.putBe32 .toDst COLO_MESSAGE_VMSTATE_SEND, Ev.flush .toDst] ++ e4,
                  [], ?_, ?_, ?_⟩
                · simp [List.append_assoc]
                · simp [s7]
                · simp
              · intro h; exact absurd (by simp) h
              · right
                refine ⟨[Ev.bufOpen true, Ev.saveHeader, Ev.saveBegin, Ev.saveComplete], ?_⟩
                have s9f : List.filter isBufEv e4 = [] := s9
                unfold bufEvs
                rw [List.filter_append, List.filter_append, s9f]
                rfl
          next w9 hp4 =>
            obtain ⟨e4, h4t, h4s, h4c, h4b, h4ok, h4na⟩ := colo_put_cmd_value_eq hp4
            have he4 := h4ok rfl
            rw [he4, hbl8] at h4t
            rw [h3t, List.append_assoc] at h4t
            have hbl9 : w9.bufLen = w.vmstateBytes := by rw [h4b, hbl8]
            obtain ⟨hAt, hAc, hAb⟩ :=
              nextErr_shape ((w9.emit (.putBuffer .toDst w9.bufLen)).emit (.flush .toDst)) .toDst
            rcases hne : ((w9.emit (.putBuffer .toDst w9.bufLen)).emit (.flush .toDst)).nextErr
                .toDst with ⟨wA, retA⟩
            rw [hne] at hAt hAc hAb
            simp only [World.emit] at hAt hAc hAb
            rw [h4t, hbl9, List.append_assoc] at hAt
            simp only
            split
            next hneg =>
              simp only
              refine ⟨[Ev.putBe32 .toDst COLO_MESSAGE_CHECKPOINT_REQUEST, Ev.flush .toDst,
                       Ev.getBe32 .fromDst COLO_MESSAGE_CHECKPOINT_REPLY,
                       Ev.bufTruncate, Ev.bufOpen true, Ev.vmStop, Ev.saveHeader,
                       Ev.saveBegin, Ev.saveComplete, Ev.flushTrans,
                       Ev.putBe32 .toDst COLO_MESSAGE_VMSTATE_SEND, Ev.flush .toDst,
                       Ev.putBe32 .toDst COLO_MESSAGE_VMSTATE_SIZE, Ev.flush .toDst,
                       Ev.putBe64 .toDst w.vmstateBytes, Ev.flush .toDst,
                       Ev.putBuffer .toDst w.vmstateBytes, Ev.flush .toDst,
                       Ev.closeTrans], ?_, ?_⟩
              · simp [World.emit, hAt, List.append_assoc]
              · refine transExt_fail w retA _ (by simp) (by simp) (by simp)
                  (by simp) (by simp) (by simp) ?_ (by simp) ?_
                · intro _
                  refine ⟨[Ev.putBe32 .toDst COLO_MESSAGE_CHECKPOINT_REQUEST, Ev.flush .toDst,
                           Ev.getBe32 .fromDst COLO_MESSAGE_CHECKPOINT_REPLY,
                           Ev.bufTruncate, Ev.bufOpen true, Ev.vmStop, Ev.saveHeader,
                           Ev.saveBegin, Ev.saveComplete, Ev.flushTrans,
                           Ev.putBe32 .toDst COLO_MESSAGE_VMSTATE_SEND, Ev.flush .toDst,
                           Ev.putBe32 .toDst COLO_MESSAGE_VMSTATE_SIZE, Ev.flush .toDst,
                           Ev.putBe64 .toDst w.vmstateBytes, Ev.flush .toDst,
                           Ev.putBuffer .toDst w.vmstateBytes, Ev.flush .toDst], [], ?_, ?_, ?_⟩
                  · simp [List.append_assoc]
                  · simp
                  · simp
                · right
                  exact ⟨[Ev.bufOpen true, Ev.saveHeader, Ev.saveBegin, Ev.saveComplete,
                    Ev.putBuffer .toDst w.vmstateBytes], by
                      unfold bufEvs
                      rfl⟩
            next hpos =>
              split
              next w11 er5 hp5 =>
                obtain ⟨v5, h5t, h5c, h5b, h5ok, h5na⟩ := colo_get_check_cmd_eq hp5
                rw [hAt, List.append_assoc] at h5t
                simp only
                refine ⟨[Ev.putBe32 .toDst COLO_MESSAGE_CHECKPOINT_REQUEST, Ev.flush .toDst,
                         Ev.getBe32 .fromDst COLO_MESSAGE_CHECKPOINT_REPLY,
                         Ev.bufTruncate, Ev.bufOpen true, Ev.vmStop, Ev.saveHeader,
                         Ev.saveBegin, Ev.saveComplete, Ev.flushTrans,
                         Ev.putBe32 .toDst COLO_MESSAGE_VMSTATE_SEND, Ev.flush .toDst,
                         Ev.putBe32 .toDst COLO_MESSAGE_VMSTATE_SIZE, Ev.flush .toDst,
                         Ev.putBe64 .toDst w.vmstateBytes, Ev.flush .toDst,
                         Ev.putBuffer .toDst w.vmstateBytes, Ev.flush .toDst,
                         Ev.getBe32 .fromDst v5, Ev.closeTrans],
                  by simp [World.emit, h5t, List.append_assoc], ?_⟩
                refine transExt_fail w retA _ (by simp) (by simp) (by simp)
                  (by simp) (by simp) (by simp) ?_ (by simp) ?_
                · intro _
                  refine ⟨[Ev.putBe32 .toDst COLO_MESSAGE_CHECKPOINT_REQUEST, Ev.flush .toDst,
                           Ev.getBe32 .fromDst COLO_MESSAGE_CHECKPOINT_REPLY,
                           Ev.bufTruncate, Ev.bufOpen true, Ev.vmStop, Ev.saveHeader,
                           Ev.saveBegin, Ev.saveComplete, Ev.flushTrans,
                           Ev.putBe32 .toDst COLO_MESSAGE_VMSTATE_SEND, Ev.flush .toDst,
                           Ev.putBe32 .toDst COLO_MESSAGE_VMSTATE_SIZE, Ev.flush .toDst,
                           Ev.putBe64 .toDst w.vmstateBytes, Ev.flush .toDst,
                           Ev.putBuffer .toDst w.vmstateBytes, Ev.flush .toDst,
                           Ev.getBe32 .fromDst v5], [], ?_, ?_, ?_⟩
                  · simp [List.append_assoc]
                  · simp
                  · simp
                · right
                  exact ⟨[Ev.bufOpen true, Ev.saveHeader, Ev.saveBegin, Ev.saveComplete,
                    Ev.putBuffer .toDst w.vmstateBytes], by
                      unfold bufEvs
                      rfl⟩
              next w11 hp5 =>
                obtain ⟨v5, h5t, h5c, h5b, h5ok, h5na⟩ := colo_get_check_cmd_eq hp5
                have hv5 := h5ok rfl
                rw [hv5] at h5t
                rw [hAt, List.append_assoc] at h5t
                split
                next w12 er6 hp6 =>
                  obtain ⟨v6, h6t, h6c, h6b, h6ok, h6na⟩ := colo_get_check_cmd_eq hp6
                  rw [h5t, List.append_assoc] at h6t
                  simp only
                  refine ⟨[Ev.putBe32 .toDst COLO_MESSAGE_CHECKPOINT_REQUEST, Ev.flush .toDst,
                           Ev.getBe32 .fromDst COLO_MESSAGE_CHECKPOINT_REPLY,
                           Ev.bufTruncate, Ev.bufOpen true, Ev.vmStop, Ev.saveHeader,
                           Ev.saveBegin, Ev.saveComplete, Ev.flushTrans,
                           Ev.putBe32 .toDst COLO_MESSAGE_VMSTATE_SEND, Ev.flush .toDst,
                           Ev.putBe32 .toDst COLO_MESSAGE_VMSTATE_SIZE, Ev.flush .toDst,
                           Ev.putBe64 .toDst w.vmstateBytes, Ev.flush .toDst,
                           Ev.putBuffer .toDst w.vmstateBytes, Ev.flush .toDst,
                           Ev.getBe32 .fromDst COLO_MESSAGE_VMSTATE_RECEIVED,
                           Ev.getBe32 .fromDst v6, Ev.closeTrans],
                    by simp [World.emit, h6t, List.append_assoc], ?_⟩
                  refine transExt_fail w retA _ (by simp) (by simp) (by simp)
                    (by simp) (by simp) (by simp) ?_ (by simp) ?_
                  · intro _
                    refine ⟨[Ev.putBe32 .toDst COLO_MESSAGE_CHECKPOINT_REQUEST, Ev.flush .toDst,
                             Ev.getBe32 .fromDst COLO_MESSAGE_CHECKPOINT_REPLY,
                             Ev.bufTruncate, Ev.bufOpen true, Ev.vmStop, Ev.saveHeader,
                             Ev.saveBegin, Ev.saveComplete, Ev.flushTrans,
                             Ev.putBe32 .toDst COLO_MESSAGE_VMSTATE_SEND, Ev.flush .toDst,
                             Ev.putBe32 .toDst COLO_MESSAGE_VMSTATE_SIZE, Ev.flush .toDst,
                             Ev.putBe64 .toDst w.vmstateBytes, Ev.flush .toDst,
                             Ev.putBuffer .toDst w.vmstateBytes, Ev.flush .toDst,
                             Ev.getBe32 .fromDst COLO_MESSAGE_VMSTATE_RECEIVED,
                             Ev.getBe32 .fromDst v6], [], ?_, ?_, ?_⟩
                    · simp [List.append_assoc]
                    · simp
                    · simp
                  · right
                    exact ⟨[Ev.bufOpen true, Ev.saveHeader, Ev.saveBegin, Ev.saveComplete,
                      Ev.putBuffer .toDst w.vmstateBytes], by
                        unfold bufEvs
                        rfl⟩
                next w12 hp6 =>
                  obtain ⟨v6, h6t, h6c, h6b, h6ok, h6na⟩ := colo_get_check_cmd_eq hp6
                  have hv6 := h6ok rfl
                  rw [hv6] at h6t
                  rw [h5t, List.append_assoc] at h6t
                  simp only
                  refine ⟨successTraceP w.vmstateBytes, ?_, ?_⟩
                  · simp [World.emit, h6t, successTraceP, List.append_assoc]
                  · refine ⟨fun _ => ⟨rfl, rfl⟩, fun h => absurd rfl h,
                      ?_, ?_, ?_, ?_, ?_, ?_, ?_, ?_⟩
                    · intro b; simp [successTraceP]
                    · intro b; simp [successTraceP]
                    · intro b; simp [successTraceP]
                    · intro c2; simp [successTraceP]
                    · simp [successTraceP]
                    · intro _
                      refine ⟨[Ev.putBe32 .toDst COLO_MESSAGE_CHECKPOINT_REQUEST, Ev.flush .toDst,
                               Ev.getBe32 .fromDst COLO_MESSAGE_CHECKPOINT_REPLY,
                               Ev.bufTruncate, Ev.bufOpen true, Ev.vmStop, Ev.saveHeader,
                               Ev.saveBegin, Ev.saveComplete, Ev.flushTrans,
                               Ev.putBe32 .toDst COLO_MESSAGE_VMSTATE_SEND, Ev.flush .toDst,
                               Ev.putBe32 .toDst COLO_MESSAGE_VMSTATE_SIZE, Ev.flush .toDst,
                               Ev.putBe64 .toDst w.vmstateBytes, Ev.flush .toDst,
                               Ev.putBuffer .toDst w.vmstateBytes, Ev.flush .toDst,
                               Ev.getBe32 .fromDst COLO_MESSAGE_VMSTATE_RECEIVED,
                               Ev.getBe32 .fromDst COLO_MESSAGE_VMSTATE_LOADED,
                               Ev.vmStart], [], ?_, ?_, ?_⟩
                      · simp [successTraceP, List.append_assoc]
                      · simp
                      · simp
                    · intro h; exact absurd (by simp [successTraceP]) h
                    · right
                      exact ⟨[Ev.bufOpen true, Ev.saveHeader, Ev.saveBegin, Ev.saveComplete,
                        Ev.putBuffer .toDst w.vmstateBytes], by
                          unfold bufEvs successTraceP
                          rfl⟩


lemma guestStateAfter_false_of_no_start {l : List Ev} (h : Ev.vmStart ∉ l) :
    guestStateAfter false l = false := by
  induction l with
  | nil => rfl
  | cons e t ih =>
    simp only [List.mem_cons, not_or] at h
    have hs : stepGuest false e = false := by
      cases e <;> simp_all [stepGuest]
    show List.foldl stepGuest (stepGuest false e) t = false
    rw [hs]
    exact ih h.2

lemma guestStateAfter_iff_of_no_start {l : List Ev} (h : Ev.vmStart ∉ l) :
    (guestStateAfter true l = false ↔ Ev.vmStop ∈ l) := by
  induction l with
  | nil => simp [guestStateAfter]
  | cons e t ih =>
    simp only [List.mem_cons, not_or] at h
    by_cases he : e = Ev.vmStop
    · subst he
      show List.foldl stepGuest (stepGuest true Ev.vmStop) t = false ↔ _
      have hf : List.foldl stepGuest false t = false :=
        guestStateAfter_false_of_no_start h.2
      simp [stepGuest, hf]
    · have hs : stepGuest true e = true := by
        cases e <;> simp_all [stepGuest]
      show List.foldl stepGuest (stepGuest true e) t = false ↔ _
      rw [hs]
      have := ih h.2
      simp only [guestStateAfter] at this
      rw [this]
      simp only [List.mem_cons]
      constructor
      · exact fun hm => Or.inr hm
      · rintro (hm | hm)
        · exact absurd hm.symm he
        · exact hm

/-- One primary checkpoint transaction leaves the scripted configuration
fields of the world unchanged. -/
lemma trans_cfg (w : World) : SameCfg w (colo_do_checkpoint_transaction w).1 := by
  unfold colo_do_checkpoint_transaction
  split
  next w1 er1 hp1 =>
    obtain ⟨_, _, _, hc, _⟩ := colo_put_cmd_eq hp1
    exact hc
  next w1 hp1 =>
    obtain ⟨_, _, _, h1c, _⟩ := colo_put_cmd_eq hp1
    split
    next w2 er2 hp2 =>
      obtain ⟨_, _, h2c, _⟩ := colo_get_check_cmd_eq hp2
      exact sameCfg_comp h1c h2c
    next w2 hp2 =>
      obtain ⟨_, _, h2c, _⟩ := colo_get_check_cmd_eq hp2
      have hcfg2 : SameCfg w w2 := sameCfg_comp h1c h2c
      simp only
      split
      next hopen => exact hcfg2
      next hopen =>
        split
        next w8 er3 hp3 =>
          obtain ⟨_, _, _, h3c, _⟩ := colo_put_cmd_eq hp3
          simp only [World.emit, SameCfg] at h3c
          exact sameCfg_comp hcfg2 h3c
        next w8 hp3 =>
          obtain ⟨_, _, _, h3c, _⟩ := colo_put_cmd_eq hp3
          simp only [World.emit, SameCfg] at h3c
          have hcfg8 : SameCfg w w8 := sameCfg_comp hcfg2 h3c
          split
          next w9 er4 hp4 =>
            obtain ⟨_, _, _, h4c, _⟩ := colo_put_cmd_value_eq hp4
            exact sameCfg_comp hcfg8 h4c
          next w9 hp4 =>
            obtain ⟨_, _, _, h4c, _⟩ := colo_put_cmd_value_eq hp4
            have hcfg9 : SameCfg w w9 := sameCfg_comp hcfg8 h4c
            obtain ⟨_, hAc, _⟩ :=
              nextErr_shape ((w9.emit (.putBuffer .toDst w9.bufLen)).emit
                (.flush .toDst)) .toDst
            rcases hne : ((w9.emit (.putBuffer .toDst w9.bufLen)).emit
                (.flush .toDst)).nextErr .toDst with ⟨wA, retA⟩
            rw [hne] at hAc
            simp only at hAc
            have hcfgA : SameCfg w wA := sameCfg_comp hcfg9 hAc
            simp only
            split
            next hneg => exact hcfgA
            next hpos =>
              split
              next w11 er5 hp5 =>
                obtain ⟨_, _, h5c, _⟩ := colo_get_check_cmd_eq hp5
                exact sameCfg_comp hcfgA h5c
              next w11 hp5 =>
                obtain ⟨_, _, h5c, _⟩ := colo_get_check_cmd_eq hp5
                have hcfgB : SameCfg w w11 := sameCfg_comp hcfgA h5c
                split
                next w12 er6 hp6 =>
                  obtain ⟨_, _, h6c, _⟩ := colo_get_check_cmd_eq hp6
                  exact sameCfg_comp hcfgB h6c
                next w12 hp6 =>
                  obtain ⟨_, _, h6c, _⟩ := colo_get_check_cmd_eq hp6
                  exact sameCfg_comp hcfgB h6c

/-- Claim C1: every run of the primary checkpoint transaction performs its
steps in order: send CHECKPOINT_REQUEST, receive-and-match CHECKPOINT_REPLY,
truncate the staging buffer and open it for write, stop the guest, serialize
the VM state into the buffer, send VMSTATE_SEND then VMSTATE_SIZE carrying
the buffer length then the raw buffer contents, receive-and-match
VMSTATE_RECEIVED then VMSTATE_LOADED, and only after both acknowledgments
resume the guest.  A fully successful run is one that reaches the resume:
its trace is exactly successTraceP — every step in the claimed order, the
resume after both acknowledgment reads — it returns 0, and the guest stop
and resume each occur exactly once, stop before resume.  (Success is keyed
to the resume event, not to the return value: the source also returns 0 on
the two acknowledgment-check failures, where ret keeps the value the
qemu_file_get_error check left at line 174.) -/
theorem primary_transaction_success_order (w : World) (h0 : w.trace = [])
    (hs : Ev.vmStart ∈ (colo_do_checkpoint_transaction w).1.trace) :
    (colo_do_checkpoint_transaction w).1.trace = successTraceP w.vmstateBytes ∧
    (colo_do_checkpoint_transaction w).2 = 0 ∧
    (∃ t1 t2 t3, (colo_do_checkpoint_transaction w).1.trace =
        t1 ++ Ev.vmStop :: (t2 ++ Ev.vmStart :: t3) ∧
      Ev.vmStop ∉ t1 ∧ Ev.vmStop ∉ t2 ∧ Ev.vmStop ∉ t3 ∧
      Ev.vmStart ∉ t1 ∧ Ev.vmStart ∉ t2 ∧ Ev.vmStart ∉ t3) := by
  obtain ⟨ext, ht, hT⟩ := trans_shape w
  rw [h0, List.nil_append] at ht
  rw [ht] at hs
  obtain ⟨hext, hret⟩ := hT.1 hs
  rw [ht, hext]
  refine ⟨rfl, hret,
    ⟨[Ev.putBe32 .toDst COLO_MESSAGE_CHECKPOINT_REQUEST, Ev.flush .toDst,
      Ev.getBe32 .fromDst COLO_MESSAGE_CHECKPOINT_REPLY,
      Ev.bufTruncate, Ev.bufOpen true],
     [Ev.saveHeader, Ev.saveBegin, Ev.saveComplete, Ev.flushTrans,
      Ev.putBe32 .toDst COLO_MESSAGE_VMSTATE_SEND, Ev.flush .toDst,
      Ev.putBe32 .toDst COLO_MESSAGE_VMSTATE_SIZE, Ev.flush .toDst,
      Ev.putBe64 .toDst w.vmstateBytes, Ev.flush .toDst,
      Ev.putBuffer .toDst w.vmstateBytes, Ev.flush .toDst,
      Ev.getBe32 .fromDst COLO_MESSAGE_VMSTATE_RECEIVED,
      Ev.getBe32 .fromDst COLO_MESSAGE_VMSTATE_LOADED],
     [Ev.closeTrans], rfl, by simp, by simp, by simp, by simp, by simp, by simp⟩⟩

/-- Scripted world in which the very first send of CHECKPOINT_REQUEST hits
a transport error: the transaction fails before the guest-stop call. -/
def cwEarly : World :=
  { toDstErrs := [-5], toSrcErrs := [], fromDstRecvs := [], fromSrcRecvs := [],
    bufOpenOk := true, bufAllocOk := true, returnPathOk := true,
    ramCacheInitRet := 0, vmstateBytes := 1024, bufLen := 0, trace := [] }

/-- Claim C3, counterexample: a failure at step 1 (sending
CHECKPOINT_REQUEST) makes the transaction return failure while the guest was
never stopped — starting from a running guest it is still running — refuting
the claim that every failure before step 10 leaves the guest stopped. -/
theorem primary_early_failure_guest_running :
    (colo_do_checkpoint_transaction cwEarly).2 ≠ 0 ∧
    Ev.vmStop ∉ (colo_do_checkpoint_transaction cwEarly).1.trace ∧
    guestStateAfter true (colo_do_checkpoint_transaction cwEarly).1.trace = true := by
  decide

/-- Claim C3 (amended): whenever the primary checkpoint transaction returns
failure, resume is never called, so the guest is left exactly as the failing
step implies: stopped precisely when the failure occurred at or after the
guest-stop call (step 4), and still running (unchanged from the prior cycle)
when it occurred at steps 1 to 3, which precede the guest-stop call. -/
theorem primary_transaction_failure_guest_state (w : World) (h0 : w.trace = [])
    (hf : (colo_do_checkpoint_transaction w).2 ≠ 0) :
    Ev.vmStart ∉ (colo_do_checkpoint_transaction w).1.trace ∧
    (guestStateAfter true (colo_do_checkpoint_transaction w).1.trace = false ↔
      Ev.vmStop ∈ (colo_do_checkpoint_transaction w).1.trace) := by
  obtain ⟨ext, ht, hT⟩ := trans_shape w
  rw [h0, List.nil_append] at ht
  rw [ht]
  have hns := hT.2.1 hf
  exact ⟨hns, guestStateAfter_iff_of_no_start hns⟩

/-- Claim C10: in every run of the primary checkpoint transaction, the write
file opened over the staging buffer is closed exactly once when the open
succeeded — on every exit path — and never closed when the open failed or
was not reached. -/
theorem trans_file_close_exactly_once (w : World) (h0 : w.trace = []) :
    (Ev.bufOpen true ∈ (colo_do_checkpoint_transaction w).1.trace →
      ExactlyOnce Ev.closeTrans (colo_do_checkpoint_transaction w).1.trace) ∧
    (Ev.bufOpen true ∉ (colo_do_checkpoint_transaction w).1.trace →
      Ev.closeTrans ∉ (colo_do_checkpoint_transaction w).1.trace) := by
  obtain ⟨ext, ht, hT⟩ := trans_shape w
  rw [h0, List.nil_append] at ht
  rw [ht]
  obtain ⟨c1, c2, c3, c4, c5, c6, c7, c8, c9, c10⟩ := hT
  exact ⟨c8, c9⟩

/-- Events a checkpoint transaction may emit never touch phase-level
resources: no buffer allocation or free, no return-path open or close, no
phase-completion transition. -/
def PureLoopExt (ext : List Ev) : Prop :=
  (∀ b, Ev.bufAlloc b ∉ ext) ∧ (∀ b, Ev.bufFree b ∉ ext) ∧
  (∀ b, Ev.getReturnPath b ∉ ext) ∧ (∀ c, Ev.closeFile c ∉ ext) ∧
  Ev.setCompleted ∉ ext

lemma pureLoopExt_nil : PureLoopExt [] :=
  ⟨by simp, by simp, by simp, by simp, by simp⟩

lemma pureLoopExt_append {e1 e2 : List Ev} (h1 : PureLoopExt e1)
    (h2 : PureLoopExt e2) : PureLoopExt (e1 ++ e2) := by
  obtain ⟨a, b, c, d, e⟩ := h1
  obtain ⟨a', b', c', d', e'⟩ := h2
  exact ⟨fun x => by simp [a x, a' x], fun x => by simp [b x, b' x],
    fun x => by simp [c x, c' x], fun x => by simp [d x, d' x], by simp [e, e']⟩

lemma transExt_pure {w : World} {ret : Int} {ext : List Ev}
    (h : TransExt w ret ext) : PureLoopExt ext := by
  obtain ⟨_, _, c3, c4, c5, c6, c7, _⟩ := h
  exact ⟨c3, c4, c5, c6, c7⟩

lemma primary_loop_shape (phase : List Bool) (w : World) :
    ∃ ext, (colo_primary_loop w phase).1.trace = w.trace ++ ext ∧ PureLoopExt ext ∧
      SameCfg w (colo_primary_loop w phase).1 := by
  induction phase generalizing w with
  | nil =>
    exact ⟨[], by simp [colo_primary_loop], pureLoopExt_nil, sameCfg_refl w⟩
  | cons b rest ih =>
    simp only [colo_primary_loop]
    split
    · exact ⟨[], by simp, pureLoopExt_nil, sameCfg_refl w⟩
    · obtain ⟨ext1, ht1, hT1⟩ := trans_shape w
      have hc1 := trans_cfg w
      rcases htr : colo_do_checkpoint_transaction w with ⟨w1, ret⟩
      rw [htr] at ht1 hT1 hc1
      simp only at ht1 hT1 hc1 ⊢
      split
      · exact ⟨ext1, ht1, transExt_pure hT1, hc1⟩
      · obtain ⟨ext2, ht2, hp2, hcc2⟩ := ih w1
        exact ⟨ext1 ++ ext2, by rw [ht2, ht1, List.append_assoc],
          pureLoopExt_append (transExt_pure hT1) hp2, sameCfg_comp hc1 hcc2⟩

lemma checkpoint_out_trace (w : World) (alloc : Bool) :
    (colo_checkpoint_out w alloc).trace =
      w.trace ++ [Ev.setCompleted, Ev.bufFree alloc] ++
        (if w.returnPathOk then [Ev.closeFile Chan.fromDst] else []) := by
  by_cases h : w.returnPathOk <;>
    simp [colo_checkpoint_out, World.emit, h, List.append_assoc]

/-- Claim C5: across one primary checkpoint phase the staging buffer is
allocated exactly once (before the transaction loop) and freed exactly once
at phase end, and the return-path handle is opened exactly once and closed
exactly once at phase end, with the free and close happening exactly when
the corresponding acquisition succeeded; moreover no checkpoint transaction
allocates or frees the buffer (it is never reallocated per transaction), and
within a transaction every staging-buffer operation is preceded by the
truncation to length zero, which is the first buffer operation. -/
theorem staging_buffer_lifecycle :
    (∀ w ph, w.trace = [] →
      (Ev.bufAlloc true ∈ (colo_process_checkpoint w ph).trace →
        ExactlyOnce (Ev.bufAlloc true) (colo_process_checkpoint w ph).trace ∧
        ExactlyOnce (Ev.bufFree true) (colo_process_checkpoint w ph).trace) ∧
      (Ev.bufAlloc true ∉ (colo_process_checkpoint w ph).trace →
        Ev.bufFree true ∉ (colo_process_checkpoint w ph).trace) ∧
      (Ev.getReturnPath true ∈ (colo_process_checkpoint w ph).trace →
        ExactlyOnce (Ev.getReturnPath true) (colo_process_checkpoint w ph).trace ∧
        ExactlyOnce (Ev.closeFile Chan.fromDst) (colo_process_checkpoint w ph).trace) ∧
      (Ev.getReturnPath true ∉ (colo_process_checkpoint w ph).trace →
        Ev.closeFile Chan.fromDst ∉ (colo_process_checkpoint w ph).trace)) ∧
    (∀ w, w.trace = [] →
      (∀ b, Ev.bufAlloc b ∉ (colo_do_checkpoint_transaction w).1.trace) ∧
      (∀ b, Ev.bufFree b ∉ (colo_do_checkpoint_transaction w).1.trace) ∧
      (bufEvs (colo_do_checkpoint_transaction w).1.trace = [] ∨
        ∃ t, bufEvs (colo_do_checkpoint_transaction w).1.trace = Ev.bufTruncate :: t)) := by
  constructor
  · intro w ph h0
    unfold colo_process_checkpoint
    simp only
    split
    next hrp =>
      simp only [World.emit] at hrp
      rw [checkpoint_out_trace]
      simp [World.emit, h0, hrp]
    next hrp =>
      simp only [World.emit] at hrp
      rw [Bool.not_eq_false] at hrp
      split
      next w2 er2 hp2 =>
        obtain ⟨v2, h2t, h2c, _⟩ := colo_get_check_cmd_eq hp2
        simp only [World.emit] at h2t h2c
        rw [h0] at h2t
        simp only [List.nil_append] at h2t
        have h2rp : w2.returnPathOk = true := by rw [h2c.2.2.1, hrp]
        rw [checkpoint_out_trace, h2t, h2rp, hrp]
        simp only [if_true]
        refine ⟨by simp, by simp, fun _ => ?_, fun h => absurd (by simp) h⟩
        constructor
        · exact ⟨[], [Ev.getBe32 .fromDst v2, Ev.setCompleted, Ev.bufFree false,
            Ev.closeFile Chan.fromDst], by simp, by simp, by simp⟩
        · exact ⟨[Ev.getReturnPath true, Ev.getBe32 .fromDst v2, Ev.setCompleted,
            Ev.bufFree false], [], by simp, by simp, by simp⟩
      next w2 hp2 =>
        obtain ⟨v2, h2t, h2c, _, h2ok, _⟩ := colo_get_check_cmd_eq hp2
        have hv2 := h2ok rfl
        simp only [World.emit] at h2t h2c
        rw [h0] at h2t
        simp only [List.nil_append] at h2t
        rw [hv2] at h2t
        have h2rp : w2.returnPathOk = true := by rw [h2c.2.2.1, hrp]
        split
        next halloc =>
          rw [checkpoint_out_trace]
          simp only [World.emit, h2t, h2rp, hrp, if_true]
          refine ⟨by simp, by simp, fun _ => ?_, fun h => absurd (by simp) h⟩
          constructor
          · exact ⟨[], [Ev.getBe32 .fromDst COLO_MESSAGE_CHECKPOINT_READY,
              Ev.bufAlloc false, Ev.setCompleted, Ev.bufFree false,
              Ev.closeFile Chan.fromDst], by simp, by simp, by simp⟩
          · exact ⟨[Ev.getReturnPath true,
              Ev.getBe32 .fromDst COLO_MESSAGE_CHECKPOINT_READY,
              Ev.bufAlloc false, Ev.setCompleted, Ev.bufFree false], [],
              by simp, by simp, by simp⟩
        next halloc =>
          rw [Bool.not_eq_false] at halloc
          obtain ⟨lext, hlt, hlp, hlc⟩ :=
            primary_loop_shape ph ((w2.emit (.bufAlloc true)).emit .vmStart)
          have hlt2 : (colo_primary_loop ((w2.emit (.bufAlloc true)).emit .vmStart)
              ph).1.trace =
              [Ev.getReturnPath true, Ev.getBe32 .fromDst COLO_MESSAGE_CHECKPOINT_READY,
               Ev.bufAlloc true, Ev.vmStart] ++ lext := by
            rw [hlt]
            simp [World.emit, h2t, hrp, List.append_assoc]
          have hlrp : (colo_primary_loop
              ((w2.emit (.bufAlloc true)).emit .vmStart) ph).1.returnPathOk = true := by
            rw [hlc.2.2.1]
            simpa [World.emit] using h2rp
          rw [checkpoint_out_trace, hlt2, hlrp]
          simp only [if_true, List.append_assoc]
          obtain ⟨pa, pf, pr, pc, ps⟩ := hlp
          refine ⟨fun _ => ?_, fun h => absurd (by simp) h, fun _ => ?_,
            fun h => absurd (by simp) h⟩
          · constructor
            · exact ⟨[Ev.getReturnPath true,
                Ev.getBe32 .fromDst COLO_MESSAGE_CHECKPOINT_READY],
                Ev.vmStart :: (lext ++ [Ev.setCompleted, Ev.bufFree true,
                  Ev.closeFile Chan.fromDst]),
                by simp, by simp, by simp [pa true]⟩
            · exact ⟨[Ev.getReturnPath true,
                Ev.getBe32 .fromDst COLO_MESSAGE_CHECKPOINT_READY,
                Ev.bufAlloc true, Ev.vmStart] ++ lext ++ [Ev.setCompleted],
                [Ev.closeFile Chan.fromDst],
                by simp [List.append_assoc], by simp [pf true], by simp⟩
          · constructor
            · exact ⟨[], [Ev.getBe32 .fromDst COLO_MESSAGE_CHECKPOINT_READY,
                Ev.bufAlloc true, Ev.vmStart] ++ lext ++ [Ev.setCompleted,
                  Ev.bufFree true, Ev.closeFile Chan.fromDst],
                by simp [List.append_assoc], by simp, by simp [pr true]⟩
            · exact ⟨[Ev.getReturnPath true,
                Ev.getBe32 .fromDst COLO_MESSAGE_CHECKPOINT_READY,
                Ev.bufAlloc true, Ev.vmStart] ++ lext ++ [Ev.setCompleted,
                  Ev.bufFree true], [],
                by simp [List.append_assoc], by simp [pc Chan.fromDst], by simp⟩
  · intro w h0
    obtain ⟨ext, ht, hT⟩ := trans_shape w
    rw [h0, List.nil_append] at ht
    rw [ht]
    obtain ⟨_, _, c3, c4, _, _, _, _, _, c10⟩ := hT
    exact ⟨c3, c4, c10⟩

/-- Events the responder loop may emit never touch the secondary teardown
resources. -/
def SecLoopExt (ext : List Ev) : Prop :=
  Ev.ramCacheRelease ∉ ext ∧ Ev.exitColo ∉ ext ∧ (∀ c, Ev.closeFile c ∉ ext) ∧
  (∀ b, Ev.ramCacheInit b ∉ ext) ∧ (∀ b, Ev.getReturnPath b ∉ ext) ∧
  Ev.enterColo ∉ ext ∧ (∀ c, Ev.setBlocking c ∉ ext)

lemma secLoopExt_nil : SecLoopExt [] :=
  ⟨by simp, by simp, by simp, by simp, by simp, by simp, by simp⟩

lemma secLoopExt_append {e1 e2 : List Ev} (h1 : SecLoopExt e1) (h2 : SecLoopExt e2) :
    SecLoopExt (e1 ++ e2) := by
  obtain ⟨a, b, c, d, e, f, g⟩ := h1
  obtain ⟨a', b', c', d', e', f', g'⟩ := h2
  exact ⟨by simp [a, a'], by simp [b, b'], fun x => by simp [c x, c' x],
    fun x => by simp [d x, d' x], fun x => by simp [e x, e' x], by simp [f, f'],
    fun x => by simp [g x, g' x]⟩

lemma secSubsetSafe {e : List Ev} {f : Chan} {c v : Nat}
    (hs : e ⊆ [Ev.putBe32 f c, Ev.flush f, Ev.putBe64 f v]) : SecLoopExt e :=
  ⟨fun h => absurd (hs h) (by simp), fun h => absurd (hs h) (by simp),
    fun c2 h => absurd (hs h) (by simp), fun b h => absurd (hs h) (by simp),
    fun b h => absurd (hs h) (by simp), fun h => absurd (hs h) (by simp),
    fun c2 h => absurd (hs h) (by simp)⟩

lemma secLoopExt_single (f : Chan) (v : Nat) : SecLoopExt [Ev.getBe32 f v] :=
  ⟨by simp, by simp, by simp, by simp, by simp, by simp, by simp⟩

lemma incoming_loop_shape (phase : List Bool) (w : World) :
    ∃ ext, (colo_incoming_loop w phase).1.trace = w.trace ++ ext ∧ SecLoopExt ext ∧
      SameCfg w (colo_incoming_loop w phase).1 ∧
      (colo_incoming_loop w phase).2 ≠ some ChannelError.assertFailed := by
  induction phase generalizing w with
  | nil =>
    exact ⟨[], by simp [colo_incoming_loop], secLoopExt_nil, sameCfg_refl w,
      by simp [colo_incoming_loop]⟩
  | cons b rest ih =>
    simp only [colo_incoming_loop]
    split
    · exact ⟨[], by simp, secLoopExt_nil, sameCfg_refl w, by simp⟩
    · split
      next w1 x er hw =>
        obtain ⟨v, ht, hc, hb, hok, hz, hna⟩ := colo_wait_handle_cmd_eq hw
        exact ⟨[Ev.getBe32 .fromSrc v], ht, secLoopExt_single _ _, hc,
          by simpa using hna⟩
      next w1 req hw =>
        obtain ⟨v, ht, hc, hb, hok, hz, hna⟩ := colo_wait_handle_cmd_eq hw
        have hreq : req = some 1 := hok rfl
        subst hreq
        simp only [Option.getD_some]
        split
        next hz0 => exact absurd hz0 (by norm_num)
        next hz0 =>
          split
          next w2a ea hpa =>
            obtain ⟨e2, h2t, h2s, h2c, _, _, h2na⟩ := colo_put_cmd_eq hpa
            have h2w : e2 ⊆ [Ev.putBe32 .toSrc COLO_MESSAGE_CHECKPOINT_REPLY,
                Ev.flush .toSrc, Ev.putBe64 .toSrc 0] := h2s.trans (by simp)
            refine ⟨[Ev.getBe32 .fromSrc v] ++ e2, ?_, ?_, sameCfg_comp hc h2c,
              by simpa using h2na⟩
            · rw [h2t, ht, List.append_assoc]
            · exact secLoopExt_append (secLoopExt_single _ _) (secSubsetSafe h2w)
          next w2a hpa =>
            obtain ⟨e2, h2t, h2s, h2c, _, h2ok, _⟩ := colo_put_cmd_eq hpa
            rw [h2ok rfl] at h2t
            have hcfg2 : SameCfg w w2a := sameCfg_comp hc h2c
            split
            next w3a eb hpb =>
              obtain ⟨vb, h3t, h3c, _, _, h3na⟩ := colo_get_check_cmd_eq hpb
              refine ⟨[Ev.getBe32 .fromSrc v, Ev.putBe32 .toSrc
                  COLO_MESSAGE_CHECKPOINT_REPLY, Ev.flush .toSrc,
                  Ev.getBe32 .fromSrc vb], ?_, ?_, sameCfg_comp hcfg2 h3c,
                by simpa using h3na⟩
              · rw [h3t, h2t, ht]
                simp [List.append_assoc]
              · exact ⟨by simp, by simp, by simp, by simp, by simp, by simp, by simp⟩
            next w3a hpb =>
              obtain ⟨vb, h3t, h3c, _, h3ok, _⟩ := colo_get_check_cmd_eq hpb
              rw [h3ok rfl] at h3t
              have hcfg3 : SameCfg w w3a := sameCfg_comp hcfg2 h3c
              split
              next w4a ec hpc =>
                obtain ⟨e4, h4t, h4s, h4c, _, _, h4na⟩ := colo_put_cmd_eq hpc
                have h4w : e4 ⊆ [Ev.putBe32 .toSrc COLO_MESSAGE_VMSTATE_RECEIVED,
                    Ev.flush .toSrc, Ev.putBe64 .toSrc 0] := h4s.trans (by simp)
                refine ⟨[Ev.getBe32 .fromSrc v, Ev.putBe32 .toSrc
                    COLO_MESSAGE_CHECKPOINT_REPLY, Ev.flush .toSrc,
                    Ev.getBe32 .fromSrc COLO_MESSAGE_VMSTATE_SEND] ++ e4, ?_, ?_,
                  sameCfg_comp hcfg3 h4c, by simpa using h4na⟩
                · rw [h4t, h3t, h2t, ht]
                  simp [List.append_assoc]
                · exact secLoopExt_append ⟨by simp, by simp, by simp, by simp,
                    by simp, by simp, by simp⟩ (secSubsetSafe h4w)
              next w4a hpc =>
                obtain ⟨e4, h4t, h4s, h4c, _, h4ok, _⟩ := colo_put_cmd_eq hpc
                rw [h4ok rfl] at h4t
                have hcfg4 : SameCfg w w4a := sameCfg_comp hcfg3 h4c
                split
                next w5a ed hpd =>
                  obtain ⟨e5, h5t, h5s, h5c, _, _, h5na⟩ := colo_put_cmd_eq hpd
                  have h5w : e5 ⊆ [Ev.putBe32 .toSrc COLO_MESSAGE_VMSTATE_LOADED,
                      Ev.flush .toSrc, Ev.putBe64 .toSrc 0] := h5s.trans (by simp)
                  refine ⟨[Ev.getBe32 .fromSrc v, Ev.putBe32 .toSrc
                      COLO_MESSAGE_CHECKPOINT_REPLY, Ev.flush .toSrc,
                      Ev.getBe32 .fromSrc COLO_MESSAGE_VMSTATE_SEND,
                      Ev.putBe32 .toSrc COLO_MESSAGE_VMSTATE_RECEIVED,
                      Ev.flush .toSrc] ++ e5, ?_, ?_,
                    sameCfg_comp hcfg4 h5c, by simpa using h5na⟩
                  · rw [h5t, h4t, h3t, h2t, ht]
                    simp [List.append_assoc]
                  · exact secLoopExt_append ⟨by simp, by simp, by simp, by simp,
                      by simp, by simp, by simp⟩ (secSubsetSafe h5w)
                next w5a hpd =>
                  obtain ⟨e5, h5t, h5s, h5c, _, h5ok, _⟩ := colo_put_cmd_eq hpd
                  rw [h5ok rfl] at h5t
                  have hcfg5 : SameCfg w w5a := sameCfg_comp hcfg4 h5c
                  obtain ⟨extR, hRt, hRp, hRc, hRna⟩ := ih w5a
                  refine ⟨[Ev.getBe32 .fromSrc v, Ev.putBe32 .toSrc
                      COLO_MESSAGE_CHECKPOINT_REPLY, Ev.flush .toSrc,
                      Ev.getBe32 .fromSrc COLO_MESSAGE_VMSTATE_SEND,
                      Ev.putBe32 .toSrc COLO_MESSAGE_VMSTATE_RECEIVED,
                      Ev.flush .toSrc, Ev.putBe32 .toSrc COLO_MESSAGE_VMSTATE_LOADED,
                      Ev.flush .toSrc] ++ extR, ?_, ?_,
                    sameCfg_comp hcfg5 hRc, hRna⟩
                  · rw [hRt, h5t, h4t, h3t, h2t, ht]
                    simp [List.append_assoc]
                  · refine secLoopExt_append ⟨by simp, by simp, by simp, by simp,
                      by simp, by simp, by simp⟩ hRp

lemma incoming_out_trace (w : World) :
    (colo_incoming_out w).trace = w.trace ++ [Ev.ramCacheRelease] ++
      (if w.returnPathOk then [Ev.closeFile Chan.toSrc] else []) ++ [Ev.exitColo] := by
  by_cases h : w.returnPathOk <;>
    simp [colo_incoming_out, World.emit, h, List.append_assoc]

/-- Claim C6 (amended): for every execution of the secondary responder —
zero, one or many loop iterations, failing at any step — the replication
cache is released exactly once and phase completion is signaled exactly
once; the responder channel handle is closed exactly once when the
return-path open succeeded, and never when it failed (there is then no
handle to close). -/
theorem secondary_teardown_once (w : World) (ph : List Bool) (h0 : w.trace = []) :
    ExactlyOnce Ev.ramCacheRelease (colo_process_incoming_thread w ph).trace ∧
    ExactlyOnce Ev.exitColo (colo_process_incoming_thread w ph).trace ∧
    (w.returnPathOk = true →
      ExactlyOnce (Ev.closeFile Chan.toSrc) (colo_process_incoming_thread w ph).trace) ∧
    (w.returnPathOk = false →
      Ev.closeFile Chan.toSrc ∉ (colo_process_incoming_thread w ph).trace) := by
  unfold colo_process_incoming_thread
  simp only
  split
  next hrp =>
    simp only [World.emit] at hrp
    rw [incoming_out_trace]
    simp only [World.emit, h0, hrp, if_false]
    refine ⟨⟨[Ev.enterColo, Ev.getReturnPath false], [Ev.exitColo],
        by simp, by simp, by simp⟩,
      ⟨[Ev.enterColo, Ev.getReturnPath false, Ev.ramCacheRelease], [],
        by simp, by simp, by simp⟩,
      fun h => absurd h (by simp [hrp]), fun _ => by simp⟩
  next hrp =>
    simp only [World.emit] at hrp
    rw [Bool.not_eq_false] at hrp
    split
    next hram =>
      rw [incoming_out_trace]
      simp only [World.emit, h0, hrp, if_true]
      refine ⟨⟨[Ev.enterColo, Ev.getReturnPath true, Ev.setBlocking Chan.fromSrc,
          Ev.ramCacheInit false], [Ev.closeFile Chan.toSrc, Ev.exitColo],
          by simp, by simp, by simp⟩,
        ⟨[Ev.enterColo, Ev.getReturnPath true, Ev.setBlocking Chan.fromSrc,
          Ev.ramCacheInit false, Ev.ramCacheRelease, Ev.closeFile Chan.toSrc], [],
          by simp, by simp, by simp⟩,
        fun _ => ⟨[Ev.enterColo, Ev.getReturnPath true, Ev.setBlocking Chan.fromSrc,
          Ev.ramCacheInit false, Ev.ramCacheRelease], [Ev.exitColo],
          by simp, by simp, by simp⟩,
        fun h => absurd h (by simp [hrp])⟩
    next hram =>
      split
      next w4 er hput =>
        obtain ⟨ep, hpt, hps, hpc, _, _, _⟩ := colo_put_cmd_eq hput
        obtain ⟨q1, q2, q3, q4, q5, q6, q7⟩ := secSubsetSafe
          (show ep ⊆ [Ev.putBe32 .toSrc COLO_MESSAGE_CHECKPOINT_READY,
            Ev.flush .toSrc, Ev.putBe64 .toSrc 0] from hps.trans (by simp))
        have h4rp : w4.returnPathOk = true := by
          have := hpc.2.2.1
          simp only [World.emit] at this
          rw [this, hrp]
        simp only [World.emit, h0, hrp] at hpt
        rw [incoming_out_trace, hpt, h4rp]
        simp only [if_true, List.nil_append, List.append_assoc]
        refine ⟨⟨[Ev.enterColo, Ev.getReturnPath true, Ev.setBlocking Chan.fromSrc,
            Ev.ramCacheInit true] ++ ep, [Ev.closeFile Chan.toSrc, Ev.exitColo],
            by simp [List.append_assoc], by simp [q1], by simp⟩,
          ⟨[Ev.enterColo, Ev.getReturnPath true, Ev.setBlocking Chan.fromSrc,
            Ev.ramCacheInit true] ++ ep ++ [Ev.ramCacheRelease,
            Ev.closeFile Chan.toSrc], [],
            by simp [List.append_assoc], by simp [q2], by simp⟩,
          fun _ => ⟨[Ev.enterColo, Ev.getReturnPath true, Ev.setBlocking Chan.fromSrc,
            Ev.ramCacheInit true] ++ ep ++ [Ev.ramCacheRelease], [Ev.exitColo],
            by simp [List.append_assoc], by simp [q3 Chan.toSrc], by simp⟩,
          fun h => absurd h (by simp [hrp])⟩
      next w4 hput =>
        obtain ⟨ep, hpt, hps, hpc, _, hpok, _⟩ := colo_put_cmd_eq hput
        rw [hpok rfl] at hpt
        simp only [World.emit, h0, hrp] at hpt
        obtain ⟨lext, hlt, hlp, hlc, _⟩ := incoming_loop_shape ph w4
        obtain ⟨r1, r2, r3, r4, r5, r6, r7⟩ := hlp
        have h4rp : w4.returnPathOk = true := by
          have := hpc.2.2.1
          simp only [World.emit] at this
          rw [this, hrp]
        have hLrp : (colo_incoming_loop w4 ph).1.returnPathOk = true := by
          rw [hlc.2.2.1, h4rp]
        rw [incoming_out_trace, hlt, hpt, hLrp]
        simp only [if_true, List.nil_append, List.append_assoc]
        refine ⟨⟨[Ev.enterColo, Ev.getReturnPath true, Ev.setBlocking Chan.fromSrc,
            Ev.ramCacheInit true, Ev.putBe32 .toSrc COLO_MESSAGE_CHECKPOINT_READY,
            Ev.flush .toSrc] ++ lext, [Ev.closeFile Chan.toSrc, Ev.exitColo],
            by simp [List.append_assoc], by simp [r1], by simp⟩,
          ⟨[Ev.enterColo, Ev.getReturnPath true, Ev.setBlocking Chan.fromSrc,
            Ev.ramCacheInit true, Ev.putBe32 .toSrc COLO_MESSAGE_CHECKPOINT_READY,
            Ev.flush .toSrc] ++ lext ++ [Ev.ramCacheRelease, Ev.closeFile Chan.toSrc],
            [], by simp [List.append_assoc], by simp [r2], by simp⟩,
          fun _ => ⟨[Ev.enterColo, Ev.getReturnPath true, Ev.setBlocking Chan.fromSrc,
            Ev.ramCacheInit true, Ev.putBe32 .toSrc COLO_MESSAGE_CHECKPOINT_READY,
            Ev.flush .toSrc] ++ lext ++ [Ev.ramCacheRelease], [Ev.exitColo],
            by simp [List.append_assoc], by simp [r3 Chan.toSrc], by simp⟩,
          fun h => absurd h (by simp [hrp])⟩

/-- Scripted world in which opening the responder return path fails. -/
def cwNoRp : World :=
  { toDstErrs := [], toSrcErrs := [], fromDstRecvs := [], fromSrcRecvs := [],
    bufOpenOk := true, bufAllocOk := true, returnPathOk := false,
    ramCacheInitRet := 0, vmstateBytes := 0, bufLen := 0, trace := [] }

/-- Claim C6, counterexample: when opening the return-path channel fails,
the responder reaches teardown (the cache is released and phase completion
signaled) but its channel handle is never closed — there is no handle — so
the three-part teardown claimed for every execution does not all occur. -/
theorem secondary_no_close_on_return_path_failure :
    Ev.closeFile Chan.toSrc ∉ (colo_process_incoming_thread cwNoRp []).trace ∧
    Ev.ramCacheRelease ∈ (colo_process_incoming_thread cwNoRp []).trace ∧
    Ev.exitColo ∈ (colo_process_incoming_thread cwNoRp []).trace := by
  decide

/-- Claim C9: colo_wait_handle_cmd writes 1 to *checkpoint_request whenever
it reports no error, and writes 0 only together with an error; consequently
the assert(request) in the responder loop can never fail — the loop never
yields the assert-failure outcome. -/
theorem wait_handle_request_flag :
    (∀ w f, ((colo_wait_handle_cmd w f).2.2 = none →
        (colo_wait_handle_cmd w f).2.1 = some 1) ∧
      ((colo_wait_handle_cmd w f).2.1 = some 0 →
        (colo_wait_handle_cmd w f).2.2 ≠ none)) ∧
    (∀ w ph, (colo_incoming_loop w ph).2 ≠ some ChannelError.assertFailed) := by
  constructor
  · intro w f
    obtain ⟨v, _, _, _, hok, hz, _⟩ := colo_wait_handle_cmd_ext w f
    exact ⟨hok, hz⟩
  · intro w ph
    obtain ⟨_, _, _, _, hna⟩ := incoming_loop_shape ph w
    exact hna

/-- Receive script under which the primary requests n checkpoints, each
delivered as CHECKPOINT_REQUEST followed by VMSTATE_SEND. -/
def happyScript : Nat → List (Int × Nat)
  | 0 => []
  | n + 1 => (0, COLO_MESSAGE_CHECKPOINT_REQUEST) ::
      (0, COLO_MESSAGE_VMSTATE_SEND) :: happyScript n

/-- n-fold repetition of a block of events. -/
def repTrace : Nat → List Ev → List Ev
  | 0, _ => []
  | n + 1, b => b ++ repTrace n b

/-- The event block of one successful responder iteration. -/
def secIterBlock : List Ev :=
  [.getBe32 .fromSrc COLO_MESSAGE_CHECKPOINT_REQUEST,
   .putBe32 .toSrc COLO_MESSAGE_CHECKPOINT_REPLY, .flush .toSrc,
   .getBe32 .fromSrc COLO_MESSAGE_VMSTATE_SEND,
   .putBe32 .toSrc COLO_MESSAGE_VMSTATE_RECEIVED, .flush .toSrc,
   .putBe32 .toSrc COLO_MESSAGE_VMSTATE_LOADED, .flush .toSrc]

/-- The events performed by the responder before its loop. -/
def secPreamble : List Ev :=
  [.enterColo, .getReturnPath true, .setBlocking .fromSrc, .ramCacheInit true,
   .putBe32 .toSrc COLO_MESSAGE_CHECKPOINT_READY, .flush .toSrc]

/-- The teardown events of the responder (return path open). -/
def secTeardown : List Ev := [.ramCacheRelease, .closeFile .toSrc, .exitColo]

/-- Scripted world for a fully successful secondary run of n iterations. -/
def secHappyWorld (n : Nat) : World :=
  { toDstErrs := [], toSrcErrs := [], fromDstRecvs := [],
    fromSrcRecvs := happyScript n, bufOpenOk := true, bufAllocOk := true,
    returnPathOk := true, ramCacheInitRet := 0, vmstateBytes := 0, bufLen := 0,
    trace := [] }

lemma incoming_loop_happy_step (w : World) (r : List (Int × Nat)) (ph : List Bool)
    (hr : w.fromSrcRecvs = (0, COLO_MESSAGE_CHECKPOINT_REQUEST) ::
      (0, COLO_MESSAGE_VMSTATE_SEND) :: r) (he : w.toSrcErrs = []) :
    colo_incoming_loop w (true :: ph) =
      colo_incoming_loop
        { w with
          fromSrcRecvs := r,
          trace := w.trace ++ secIterBlock } ph := by
  cases w
  simp only at hr he
  subst hr he
  simp [colo_incoming_loop, colo_wait_handle_cmd, colo_get_cmd, World.nextRecv,
    colo_put_cmd, World.nextErr, colo_get_check_cmd, World.emit, secIterBlock,
    COLO_MESSAGE_CHECKPOINT_REQUEST, COLO_MESSAGE_CHECKPOINT_REPLY,
    COLO_MESSAGE_VMSTATE_SEND, COLO_MESSAGE_VMSTATE_RECEIVED,
    COLO_MESSAGE_VMSTATE_LOADED, COLO_MESSAGE__MAX]

lemma incoming_loop_happy (n : Nat) (w : World)
    (hr : w.fromSrcRecvs = happyScript n) (he : w.toSrcErrs = []) :
    colo_incoming_loop w (List.replicate n true) =
      ({ w with
          fromSrcRecvs := ([]),
          trace := w.trace ++ repTrace n secIterBlock }, none) := by
  induction n generalizing w with
  | zero =>
    cases w
    simp only at hr
    simp_all [colo_incoming_loop, repTrace, happyScript]
  | succ n ih =>
    rw [List.replicate_succ]
    rw [incoming_loop_happy_step w (happyScript n) (List.replicate n true)
      (by rw [hr]; rfl) he]
    rw [ih _ (by simp) (by simp [he])]
    cases w
    simp_all [repTrace, List.append_assoc]

lemma sec_thread_happy (n : Nat) :
    (colo_process_incoming_thread (secHappyWorld n) (List.replicate n true)).trace =
      secPreamble ++ repTrace n secIterBlock ++ secTeardown := by
  have hloop := incoming_loop_happy n
    { toDstErrs := [], toSrcErrs := [], fromDstRecvs := [],
      fromSrcRecvs := happyScript n, bufOpenOk := true, bufAllocOk := true,
      returnPathOk := true, ramCacheInitRet := 0, vmstateBytes := 0, bufLen := 0,
      trace := [Ev.enterColo, Ev.getReturnPath true, Ev.setBlocking Chan.fromSrc,
        Ev.ramCacheInit true, Ev.putBe32 Chan.toSrc 2, Ev.flush Chan.toSrc] } rfl rfl
  simp only [colo_process_incoming_thread, secHappyWorld, World.emit,
    colo_put_cmd, World.nextErr, COLO_MESSAGE_CHECKPOINT_READY, COLO_MESSAGE__MAX]
  norm_num
  rw [hloop]
  simp [colo_incoming_out, World.emit, secPreamble, secTeardown,
    COLO_MESSAGE_CHECKPOINT_READY, List.append_assoc]

/-- Claim C4: the secondary responder first obtains the return-path handle,
initializes the replication cache and sends CHECKPOINT_READY; then, while
the phase state is the checkpointing state, each iteration receives a
command that must be CHECKPOINT_REQUEST and on success sends
CHECKPOINT_REPLY, receives-and-matches VMSTATE_SEND, then sends
VMSTATE_RECEIVED followed by VMSTATE_LOADED, in that order (the run trace of
n successful iterations is exactly preamble, n iteration blocks, teardown);
any other decoded command is a protocol error that terminates the loop at
once. -/
theorem secondary_responder_order :
    (∀ n, (colo_process_incoming_thread (secHappyWorld n)
        (List.replicate n true)).trace =
      secPreamble ++ repTrace n secIterBlock ++ secTeardown) ∧
    (∀ (w : World) (ph : List Bool) (e : Int) (v : Nat) (r : List (Int × Nat)),
      w.fromSrcRecvs = (e, v) :: r → ¬ e < 0 → v < COLO_MESSAGE__MAX →
      v ≠ COLO_MESSAGE_CHECKPOINT_REQUEST →
      colo_incoming_loop w (true :: ph) =
        ({ w with
            fromSrcRecvs := r,
            trace := w.trace ++ [Ev.getBe32 .fromSrc v] },
          some (ChannelError.unknownCmd v))) := by
  constructor
  · exact sec_thread_happy
  · intro w ph e v r hr he hv hne
    cases w
    simp only at hr
    subst hr
    simp only [COLO_MESSAGE__MAX, COLO_MESSAGE_CHECKPOINT_REQUEST] at hv hne
    simp only [colo_incoming_loop, colo_wait_handle_cmd, colo_get_cmd,
      World.nextRecv, World.emit, COLO_MESSAGE_CHECKPOINT_REQUEST,
      COLO_MESSAGE__MAX]
    rw [if_neg he, if_neg (show ¬ 7 ≤ v by omega)]
    simp only
    rw [if_neg hne]
    simp

/-- Claim C7: sending any command ordinal at or above COLO_MESSAGE__MAX
fails with the invalid-command error before any I/O — the world, and with
it the event trace and every channel script, is unchanged; receiving
reports a transport error, still returning the decoded value, when the file
is in error, and an invalid-command error, again returning the decoded
value, for an in-range read of an out-of-range ordinal. -/
theorem command_range_and_transport_errors :
    (∀ (w : World) (f : Chan) (cmd : Nat), COLO_MESSAGE__MAX ≤ cmd →
      colo_put_cmd w f cmd = (w, some (ChannelError.invalidCommand cmd))) ∧
    (∀ (w : World) (f : Chan) (e : Int) (v : Nat) (r : List (Int × Nat)),
      w.recvScript f = (e, v) :: r → e < 0 →
      (colo_get_cmd w f).2 = (v, some (ChannelError.transportError e))) ∧
    (∀ (w : World) (f : Chan) (e : Int) (v : Nat) (r : List (Int × Nat)),
      w.recvScript f = (e, v) :: r → ¬ e < 0 → COLO_MESSAGE__MAX ≤ v →
      (colo_get_cmd w f).2 = (v, some (ChannelError.invalidCommand v))) := by
  refine ⟨?_, ?_, ?_⟩
  · intro w f cmd h
    simp [colo_put_cmd, h]
  · intro w f e v r hr he
    cases f <;> simp only [World.recvScript] at hr
    case toDst => simp at hr
    case toSrc => simp at hr
    case fromDst => simp [colo_get_cmd, World.nextRecv, hr, he]
    case fromSrc => simp [colo_get_cmd, World.nextRecv, hr, he]
  · intro w f e v r hr he hv
    cases f <;> simp only [World.recvScript] at hr
    case toDst => simp at hr
    case toSrc => simp at hr
    case fromDst => simp [colo_get_cmd, World.nextRecv, hr, he, hv]
    case fromSrc => simp [colo_get_cmd, World.nextRecv, hr, he, hv]

/-- Scripted world whose return path delivers CHECKPOINT_READY next. -/
def cwMismatch : World :=
  { toDstErrs := [], toSrcErrs := [],
    fromDstRecvs := [(0, COLO_MESSAGE_CHECKPOINT_READY)], fromSrcRecvs := [],
    bufOpenOk := true, bufAllocOk := true, returnPathOk := true,
    ramCacheInitRet := 0, vmstateBytes := 0, bufLen := 0, trace := [] }

/-- Claim C8 (code bug): colo_get_check_cmd propagates receive errors and
succeeds exactly when the decoded command equals the expected one, but the
source passes (expect_cmd, cmd) — in that order — to the format string
"Unexpected COLO command %d, expected %d".  Evaluated at the failing input,
expecting CHECKPOINT_REPLY while CHECKPOINT_READY arrives, the error's
unexpected-command slot carries the expected command CHECKPOINT_REPLY and
its expected-command slot carries the received command CHECKPOINT_READY:
swapped relative to the claimed reporting of expected and received. -/
theorem get_check_cmd_swapped_error_report :
    (colo_get_check_cmd cwMismatch .fromDst COLO_MESSAGE_CHECKPOINT_REPLY).2 =
      some (ChannelError.unexpectedCmd COLO_MESSAGE_CHECKPOINT_REPLY
        COLO_MESSAGE_CHECKPOINT_READY) ∧
    COLO_MESSAGE_CHECKPOINT_REPLY ≠ COLO_MESSAGE_CHECKPOINT_READY := by
  decide

/-- Scripted world for a fully successful primary transaction writing a
1024-byte snapshot. -/
def hpw : World :=
  { toDstErrs := [], toSrcErrs := [],
    fromDstRecvs := [(0, COLO_MESSAGE_CHECKPOINT_REPLY),
      (0, COLO_MESSAGE_VMSTATE_RECEIVED), (0, COLO_MESSAGE_VMSTATE_LOADED)],
    fromSrcRecvs := [], bufOpenOk := true, bufAllocOk := true,
    returnPathOk := true, ramCacheInitRet := 0, vmstateBytes := 1024,
    bufLen := 0, trace := [] }

/-- Scripted world in which a transport error strikes while waiting for
VMSTATE_RECEIVED, after the guest has been stopped and the state sent. -/
def cwRecvFail : World :=
  { toDstErrs := [], toSrcErrs := [],
    fromDstRecvs := [(0, COLO_MESSAGE_CHECKPOINT_REPLY), (-5, 0)],
    fromSrcRecvs := [], bufOpenOk := true, bufAllocOk := true,
    returnPathOk := true, ramCacheInitRet := 0, vmstateBytes := 7,
    bufLen := 0, trace := [] }

/-- Claim C2 (code bug): the transaction fails while waiting for
VMSTATE_RECEIVED — after the guest stop, before VMSTATE_LOADED is matched —
yet returns 0, reporting success: ret was overwritten by the
qemu_file_get_error check at line 174 (0, the flush succeeded) and the
gotos at lines 181 and 187 never reassign it.  The guest is indeed left
stopped and never resumed, but the transaction does not return an error as
the claim — following the spec's every-error-is-phase-terminal policy —
requires, so the calling loop would start the next checkpoint with the
guest still stopped. -/
theorem primary_ack_failure_reports_success :
    (colo_do_checkpoint_transaction cwRecvFail).2 = 0 ∧
    Ev.vmStop ∈ (colo_do_checkpoint_transaction cwRecvFail).1.trace ∧
    Ev.vmStart ∉ (colo_do_checkpoint_transaction cwRecvFail).1.trace := by
  decide

/-- Scripted world whose inbound channel delivers CHECKPOINT_READY where the
responder expects CHECKPOINT_REQUEST. -/
def cwBadCmd : World :=
  { toDstErrs := [], toSrcErrs := [], fromDstRecvs := [],
    fromSrcRecvs := [(0, COLO_MESSAGE_CHECKPOINT_READY)], bufOpenOk := true,
    bufAllocOk := true, returnPathOk := true, ramCacheInitRet := 0,
    vmstateBytes := 0, bufLen := 0, trace := [] }

/-- Scripted world whose inbound channel delivers CHECKPOINT_REQUEST. -/
def cwReq : World :=
  { toDstErrs := [], toSrcErrs := [], fromDstRecvs := [],
    fromSrcRecvs := [(0, COLO_MESSAGE_CHECKPOINT_REQUEST)], bufOpenOk := true,
    bufAllocOk := true, returnPathOk := true, ramCacheInitRet := 0,
    vmstateBytes := 0, bufLen := 0, trace := [] }

theorem primary_transaction_success_order_witness :
    (colo_do_checkpoint_transaction hpw).1.trace = successTraceP 1024 :=
  (primary_transaction_success_order hpw rfl (by decide)).1

theorem primary_transaction_failure_guest_state_witness :
    Ev.vmStart ∉ (colo_do_checkpoint_transaction cwEarly).1.trace ∧
    (guestStateAfter true (colo_do_checkpoint_transaction cwEarly).1.trace = false ↔
      Ev.vmStop ∈ (colo_do_checkpoint_transaction cwEarly).1.trace) :=
  primary_transaction_failure_guest_state cwEarly rfl (by decide)

theorem secondary_responder_order_witness :
    colo_incoming_loop cwBadCmd [true] =
      ({ cwBadCmd with
          fromSrcRecvs := ([]),
          trace := cwBadCmd.trace ++ [Ev.getBe32 .fromSrc COLO_MESSAGE_CHECKPOINT_READY] },
        some (ChannelError.unknownCmd COLO_MESSAGE_CHECKPOINT_READY)) :=
  secondary_responder_order.2 cwBadCmd [] 0 COLO_MESSAGE_CHECKPOINT_READY []
    rfl (by decide) (by decide) (by decide)

theorem staging_buffer_lifecycle_witness :
    Ev.bufFree true ∉ (colo_process_checkpoint cwEarly []).trace :=
  (staging_buffer_lifecycle.1 cwEarly [] rfl).2.1 (by decide)

theorem secondary_teardown_once_witness :
    ExactlyOnce Ev.ramCacheRelease (colo_process_incoming_thread cwNoRp []).trace :=
  (secondary_teardown_once cwNoRp [] rfl).1

theorem command_range_and_transport_errors_witness :
    colo_put_cmd hpw Chan.toDst 9 = (hpw, some (ChannelError.invalidCommand 9)) :=
  command_range_and_transport_errors.1 hpw Chan.toDst 9 (by decide)

theorem wait_handle_request_flag_witness :
    (colo_wait_handle_cmd cwReq Chan.fromSrc).2.1 = some 1 :=
  (wait_handle_request_flag.1 cwReq Chan.fromSrc).1 (by decide)

theorem trans_file_close_exactly_once_witness :
    ExactlyOnce Ev.closeTrans (colo_do_checkpoint_transaction hpw).1.trace :=
  (trans_file_close_exactly_once hpw rfl).1 (by decide)

end Colo
